import Mathlib

/-!
# Internet-bar backend: session lifecycle and billing

A shallow embedding of the routes `POST /start` and `POST /end` of
`src/routes/usage-records.js`, which open and close a usage session inside one
database transaction, of the machine edits `PUT /machines/:id` and
`PATCH /machines/:id/hourly-rate` of `src/routes/machines.js`, of the batch
deletion `DELETE /usage-records/batch`, and of the member creation and deletion
of `src/app.js`.

Modelling conventions

* The three tables `members`, `machines`, `usage_records` are lists of rows.
  `SELECT ... WHERE` is `List.filter`, `results[0]` is the head of the filtered
  list, `UPDATE ... WHERE` is `List.map` over the rows that match, `INSERT`
  appends a row whose id is the table's auto-increment counter.
* Nullable columns are `Option`s.  Timestamps are integers (milliseconds since
  the epoch, what `Date` subtraction works on); the value of `new Date()` is an
  input `now` of each request.
* Money (`balance`, `hourly_rate`, `fee`) is a rational number.  The fee is
  computed as JavaScript computes it, in IEEE 754 doubles: `roundDouble` is the
  rounding of a real to the nearest double, and `computeFee` rounds after the
  division and after the multiplication.  A stored balance or rate is the number
  the handler reads, and the tables hold what the handler writes (the column
  types are not in the sources).  The guards `isNaN(startTime.getTime())` and
  `isNaN(fee)` of `/end` have no branch here: a typed timestamp is a valid date
  and a fee below the overflow threshold is a number.
* Every query is taken to succeed: the `if (err)` branches (storage failure,
  answered 500 after `rollback`) are not part of the model.  A `rollback`
  before any write and a request refused before the transaction both return the
  store as it was.
* The table definitions are not part of the sources.  Whether the driver hands
  `hourly_rate` back as a number or as a decimal string decides what
  `hourly_rate || 10` does for a stored rate of zero, so it is a parameter
  (`decimalStrings`) of `/end`.
* Request bodies are typed: an id or a rate is a number, a status is a string.
  `undefined` is the outer `none` of a body field and `null` the inner one.
-/

namespace InternetBar

/-! ## Data model -/

/-- Row of table `members`. -/
structure Member where
  id : Nat
  name : String
  phone : String
  balance : ℚ
  deriving DecidableEq

/-- Row of table `machines`; `member_id` is the occupant and `start_time` the
session start, both `NULL` on a free machine. -/
structure Machine where
  id : Nat
  machine_number : String
  status : String
  member_id : Option Nat
  start_time : Option Int
  hourly_rate : Option ℚ
  deriving DecidableEq

/-- Row of table `usage_records`; the record is active while `end_time` is
`NULL`. -/
structure UsageRecord where
  id : Nat
  member_id : Option Nat
  machine_id : Nat
  start_time : Option Int
  end_time : Option Int
  fee : Option ℚ
  deriving DecidableEq

/-- The database: the three tables and the auto-increment counter of
`usage_records` (the id the next `INSERT` receives). -/
structure Store where
  members : List Member
  machines : List Machine
  usage_records : List UsageRecord
  next_record_id : Nat
  deriving DecidableEq

/-- Status string of a free machine. -/
def statusFree : String := "空闲"

/-- Status string of an occupied machine. -/
def statusInUse : String := "使用中"

/-! ## Queries -/

/-- Rows of `SELECT * FROM members WHERE id = ?`. -/
def selectMembers (s : Store) (id : Nat) : List Member :=
  s.members.filter (fun m => m.id = id)

/-- Rows of `SELECT * FROM machines WHERE id = ?`. -/
def selectMachines (s : Store) (id : Nat) : List Machine :=
  s.machines.filter (fun m => m.id = id)

/-- Rows of `SELECT * FROM usage_records WHERE member_id = ? AND end_time IS NULL`. -/
def activeByMember (s : Store) (member_id : Nat) : List UsageRecord :=
  s.usage_records.filter (fun r => r.member_id = some member_id ∧ r.end_time = none)

/-- Rows of `SELECT ... FROM usage_records ur WHERE ur.machine_id = ? AND ur.end_time IS NULL`. -/
def activeByMachine (s : Store) (machine_id : Nat) : List UsageRecord :=
  s.usage_records.filter (fun r => r.machine_id = machine_id ∧ r.end_time = none)

/-! ## `POST /start` -/

/-- The `record` object of the 201 response of `/start`. -/
structure StartedRecord where
  id : Nat
  member_id : Nat
  machine_id : Nat
  start_time : Int
  deriving DecidableEq

/-- Responses of `/start`, one constructor per `res.status(...)` reached without
a storage error. -/
inductive StartResult where
  | missingIds
  | memberNotFound
  | memberAlreadyActive
  | machineNotFound
  | machineUnavailable (current_status : String)
  | created (record : StartedRecord)
  deriving DecidableEq

/-- HTTP status of a `/start` response. -/
def StartResult.status : StartResult → Nat
  | .missingIds => 400
  | .memberNotFound => 404
  | .memberAlreadyActive => 400
  | .machineNotFound => 404
  | .machineUnavailable _ => 400
  | .created _ => 201

/-- The `error` field of a `/start` response, absent on success. -/
def StartResult.error : StartResult → Option String
  | .missingIds => some "会员ID和机位ID不能为空"
  | .memberNotFound => some "会员不存在"
  | .memberAlreadyActive => some "该会员已有未结束的上机记录，不能同时使用多个机位"
  | .machineNotFound => some "机位不存在"
  | .machineUnavailable current_status => some ("该机位不可用，当前状态: " ++ current_status)
  | .created _ => none

/-- The two writes of `/start`: `INSERT INTO usage_records (member_id,
machine_id, start_time)` and `UPDATE machines SET status, member_id, start_time
WHERE id = ?`. -/
def startWrites (s : Store) (member_id machine_id : Nat) (startTime : Int) : Store :=
  { s with
    usage_records := s.usage_records ++
      [{ id := s.next_record_id, member_id := some member_id, machine_id := machine_id,
         start_time := some startTime, end_time := none, fee := none }]
    next_record_id := s.next_record_id + 1
    machines := s.machines.map (fun m =>
      if m.id = machine_id then
        { m with status := statusInUse, member_id := some member_id, start_time := some startTime }
      else m) }

/-- The handler of `POST /start` with body `{member_id, machine_id}`; `now` is the
value of `new Date()`.  A numeric id is falsy exactly when it is `0`. -/
def startSession (s : Store) (member_id machine_id : Nat) (now : Int) : Store × StartResult :=
  if member_id = 0 ∨ machine_id = 0 then (s, .missingIds) else
  match selectMembers s member_id with
  | [] => (s, .memberNotFound)
  | _ :: _ =>
    match activeByMember s member_id with
    | _ :: _ => (s, .memberAlreadyActive)
    | [] =>
      match selectMachines s machine_id with
      | [] => (s, .machineNotFound)
      | machine :: _ =>
        if machine.status ≠ statusFree then (s, .machineUnavailable machine.status) else
        (startWrites s member_id machine_id now,
         .created { id := s.next_record_id, member_id := member_id,
                    machine_id := machine_id, start_time := now })

/-! ## `POST /end` -/

/-- The `record` object of the 200 response of `/end`. -/
structure EndedRecord where
  id : Nat
  member_id : Nat
  machine_id : Nat
  start_time : Int
  end_time : Int
  duration_minutes : Int
  hourly_rate : ℚ
  fee : ℚ
  deriving DecidableEq

/-- Responses of `/end`, one constructor per `res.status(...)`/`res.json` reached
without a storage error. -/
inductive EndResult where
  | missingId
  | noActiveRecord
  | invalidMemberId
  | missingStartTime (record_id : Nat)
  | machineNotFound
  | memberNotFound
  | insufficientBalance
  | ended (record : EndedRecord)
  deriving DecidableEq

/-- HTTP status of an `/end` response. -/
def EndResult.status : EndResult → Nat
  | .ended _ => 200
  | _ => 400

/-- The `error` field of an `/end` response, absent on success. -/
def EndResult.error : EndResult → Option String
  | .missingId => some "机器ID不能为空"
  | .noActiveRecord => some "未找到未下机的记录"
  | .invalidMemberId => some "未获取到有效的会员ID"
  | .missingStartTime _ => some "上机开始时间不能为空"
  | .machineNotFound => some "未找到机位信息"
  | .memberNotFound => some "未找到会员信息"
  | .insufficientBalance => some "会员余额不足，请先充值"
  | .ended _ => none

/-- The expression `machineResults[0].hourly_rate || 10`: `NULL` is falsy, the
number `0` is falsy, a decimal string such as `"0.00"` is truthy and converts to
its value in the multiplication that follows. -/
def hourlyRateOrDefault (decimalStrings : Bool) (hourly_rate : Option ℚ) : ℚ :=
  match hourly_rate with
  | none => 10
  | some r => if decimalStrings then r else if r = 0 then 10 else r

/-- The expression `Math.ceil((endTime - startTime) / (1000 * 60))`. -/
def durationMinutes (startTime endTime : Int) : Int :=
  ⌈((endTime - startTime : Int) : ℚ) / (1000 * 60)⌉

/-- Floor of the binary logarithm of a positive natural number: the halvings
needed to bring `n` below 2, at most `fuel` of them. -/
def log2Fuel : Nat → Nat → Nat
  | 0, _ => 0
  | fuel + 1, n => if n < 2 then 0 else log2Fuel fuel (n / 2) + 1

/-- For a rational `x > 0`, the integer `e` with `2 ^ e ≤ x < 2 ^ (e + 1)`: the
difference of the binary logarithms of numerator and denominator, lowered by one
when that overshoots. -/
def binaryExponent (x : ℚ) : Int :=
  let e : Int := (log2Fuel x.num.natAbs x.num.natAbs : Int) - (log2Fuel x.den x.den : Int)
  if (2 : ℚ) ^ e ≤ x then e else e - 1

/-- The integer nearest to `x`, the even one of the two when `x` lies half-way. -/
def roundHalfEven (x : ℚ) : Int :=
  if x - ⌊x⌋ < 1 / 2 then ⌊x⌋
  else if 1 / 2 < x - ⌊x⌋ then ⌊x⌋ + 1
  else if ⌊x⌋ % 2 = 0 then ⌊x⌋ else ⌊x⌋ + 1

/-- The value of the JavaScript number (IEEE 754 binary64, round to nearest, ties
to even) nearest to the real `x`: a multiple of `2 ^ (e - 52)` for the binary
exponent `e` of `x`, which is not taken below `-1022` (subnormal numbers).
Overflow to `Infinity`, for a magnitude of `2 ^ 1024` or more, is not part of the
model. -/
def roundDouble (x : ℚ) : ℚ :=
  if x = 0 then 0 else
  (roundHalfEven (x / (2 : ℚ) ^ (max (binaryExponent |x|) (-1022) - 52)) : ℚ) *
    (2 : ℚ) ^ (max (binaryExponent |x|) (-1022) - 52)

/-- The expression `(durationMinutes / 60) * hourlyRate` in the arithmetic of
JavaScript numbers: the quotient is rounded to a double, the rate is converted to
a number (a decimal string by `ToNumber`, a number is itself), and the product is
rounded to a double. -/
def computeFee (duration_minutes : Int) (hourlyRate : ℚ) : ℚ :=
  roundDouble (roundDouble ((duration_minutes : ℚ) / 60) * roundDouble hourlyRate)

/-- The three writes of `/end`: `UPDATE usage_records SET end_time, fee WHERE
id = ?`, `UPDATE members SET balance = balance - ? WHERE id = ?` and `UPDATE
machines SET status = '空闲', member_id = NULL, start_time = NULL WHERE id = ?`. -/
def endWrites (s : Store) (id member_id machine_id : Nat) (endTime : Int) (fee : ℚ) : Store :=
  { s with
    usage_records := s.usage_records.map (fun r =>
      if r.id = id then { r with end_time := some endTime, fee := some fee } else r)
    members := s.members.map (fun m =>
      if m.id = member_id then { m with balance := m.balance - fee } else m)
    machines := s.machines.map (fun m =>
      if m.id = machine_id then
        { m with status := statusFree, member_id := none, start_time := none }
      else m) }

/-- The handler of `POST /end` with body `{machine_id}`; `now` is the value of
`new Date()` taken as `endTime`. -/
def endSession (decimalStrings : Bool) (s : Store) (machine_id : Nat) (now : Int) :
    Store × EndResult :=
  if machine_id = 0 then (s, .missingId) else
  match activeByMachine s machine_id with
  | [] => (s, .noActiveRecord)
  | record :: _ =>
    match record.member_id with
    | none => (s, .invalidMemberId)
    | some member_id =>
      if member_id = 0 then (s, .invalidMemberId) else
      match record.start_time with
      | none => (s, .missingStartTime record.id)
      | some startTime =>
        match selectMachines s record.machine_id with
        | [] => (s, .machineNotFound)
        | machine :: _ =>
          let hourlyRate := hourlyRateOrDefault decimalStrings machine.hourly_rate
          let duration := durationMinutes startTime now
          let fee := computeFee duration hourlyRate
          match selectMembers s member_id with
          | [] => (s, .memberNotFound)
          | member :: _ =>
            if member.balance < fee then (s, .insufficientBalance) else
            (endWrites s record.id member_id record.machine_id now fee,
             .ended { id := record.id, member_id := member_id, machine_id := record.machine_id,
                      start_time := startTime, end_time := now, duration_minutes := duration,
                      hourly_rate := hourlyRate, fee := fee })

/-! ## Request sequences -/

/-- A request to the session engine, with the clock reading it observes. -/
inductive Request where
  | start (member_id machine_id : Nat) (now : Int)
  | finish (machine_id : Nat) (now : Int)
  deriving DecidableEq

/-- The store after one request. -/
def step (decimalStrings : Bool) (s : Store) : Request → Store
  | .start member_id machine_id now => (startSession s member_id machine_id now).1
  | .finish machine_id now => (endSession decimalStrings s machine_id now).1

/-- The store after a sequence of requests served one after the other. -/
def run (decimalStrings : Bool) (s : Store) (reqs : List Request) : Store :=
  reqs.foldl (step decimalStrings) s

/-- The empty database. -/
def emptyStore : Store :=
  { members := [], machines := [], usage_records := [], next_record_id := 1 }

/-- The fee `/end` computes for a session begun at `startTime` on `machine` and
closed at `now`. -/
def sessionFee (decimalStrings : Bool) (machine : Machine) (startTime now : Int) : ℚ :=
  computeFee (durationMinutes startTime now) (hourlyRateOrDefault decimalStrings machine.hourly_rate)

/-! ## Predicates on stores -/

/-- Primary-key discipline of `usage_records`: ids are unique and the
auto-increment counter lies above every id in use. -/
def RecordKeys (s : Store) : Prop :=
  (s.usage_records.map (fun r => r.id)).Nodup ∧ ∀ r ∈ s.usage_records, r.id < s.next_record_id

/-- Every machine is in use iff exactly one active record references it. -/
def MachineExclusive (s : Store) : Prop :=
  ∀ m ∈ s.machines, (m.status = statusInUse ↔ (activeByMachine s m.id).length = 1)

/-- No machine is referenced by more than one active record. -/
def NoSharedMachine (s : Store) : Prop :=
  ∀ m ∈ s.machines, (activeByMachine s m.id).length ≤ 1

/-- Every member has at most one active record. -/
def MemberExclusive (s : Store) : Prop :=
  ∀ m ∈ s.members, (activeByMember s m.id).length ≤ 1

/-- The four preconditions of `/start` that are checked inside the transaction:
the member exists, has no active record, the machine exists and its first row is
free. -/
def StartPreconditions (s : Store) (member_id machine_id : Nat) : Prop :=
  selectMembers s member_id ≠ [] ∧ activeByMember s member_id = [] ∧
    match selectMachines s machine_id with
    | [] => False
    | machine :: _ => machine.status = statusFree

instance (s : Store) (member_id machine_id : Nat) :
    Decidable (StartPreconditions s member_id machine_id) := by
  unfold StartPreconditions; split <;> infer_instance

instance (s : Store) : Decidable (RecordKeys s) := by
  unfold RecordKeys; infer_instance

instance (s : Store) : Decidable (MachineExclusive s) := by
  unfold MachineExclusive; infer_instance

instance (s : Store) : Decidable (NoSharedMachine s) := by
  unfold NoSharedMachine; infer_instance

instance (s : Store) : Decidable (MemberExclusive s) := by
  unfold MemberExclusive; infer_instance

/-- Occupant and session start of every machine are those of an active record
of that machine, and each is present exactly on the machines in use. -/
def OccupantConsistent (s : Store) : Prop :=
  ∀ m ∈ s.machines,
    ((m.member_id.isSome ∨ m.start_time.isSome) →
      ∃ r ∈ activeByMachine s m.id, r.member_id = m.member_id ∧ r.start_time = m.start_time) ∧
    (m.member_id.isSome ↔ m.status = statusInUse) ∧
    (m.start_time.isSome ↔ m.status = statusInUse)

instance (s : Store) : Decidable (OccupantConsistent s) := by
  unfold OccupantConsistent; infer_instance

/-- Primary-key discipline of `members`: ids are unique. -/
def MemberKeys (s : Store) : Prop :=
  (s.members.map (fun m => m.id)).Nodup

instance (s : Store) : Decidable (MemberKeys s) := by
  unfold MemberKeys; infer_instance

/-! ## Sample stores -/

/-- Three members, three machines; machine 3 is occupied by member 3 since
time 0, machines 1 and 2 are free, machine 2 has a negative rate. -/
def demoStore : Store :=
  { members := [⟨1, "甲", "13800000001", 100⟩, ⟨2, "乙", "13800000002", 5⟩,
                ⟨3, "丙", "13800000003", 1⟩]
    machines := [⟨1, "A01", statusFree, none, none, some 10⟩,
                 ⟨2, "A02", statusFree, none, none, some (-6)⟩,
                 ⟨3, "A03", statusInUse, some 3, some 0, some 10⟩]
    usage_records := [⟨1, some 3, 3, some 0, none, none⟩]
    next_record_id := 2 }

/-- A store in which free machine 1 is referenced by two active records. -/
def sharedStore : Store :=
  { members := [⟨1, "甲", "13800000001", 100⟩, ⟨2, "乙", "13800000002", 100⟩,
                ⟨3, "丙", "13800000003", 100⟩]
    machines := [⟨1, "A01", statusFree, none, none, some 10⟩]
    usage_records := [⟨1, some 1, 1, some 0, none, none⟩, ⟨2, some 2, 1, some 0, none, none⟩]
    next_record_id := 3 }

/-- Every usage record has its fee set iff its end time is set. -/
def FeeIffEnded (s : Store) : Prop :=
  ∀ r ∈ s.usage_records, (r.fee.isSome ↔ r.end_time.isSome)

instance (s : Store) : Decidable (FeeIffEnded s) := by
  unfold FeeIffEnded; infer_instance

/-- One member with balance 100 sitting since time 0 at machine 1, whose stored
rate is zero. -/
def zeroRateStore : Store :=
  { members := [⟨1, "甲", "13800000001", 100⟩]
    machines := [⟨1, "A01", statusInUse, some 1, some 0, some 0⟩]
    usage_records := [⟨1, some 1, 1, some 0, none, none⟩]
    next_record_id := 2 }

/-- One member with balance 31 and free machine 1, whose stored rate is 60. -/
def boundaryStore : Store :=
  { members := [⟨1, "甲", "13800000001", 31⟩]
    machines := [⟨1, "A01", statusFree, none, none, some 60⟩]
    usage_records := []
    next_record_id := 1 }

/-- The member of `boundaryStore` sitting since time 0 at machine 1. -/
def boundarySessionStore : Store :=
  { members := [⟨1, "甲", "13800000001", 31⟩]
    machines := [⟨1, "A01", statusInUse, some 1, some 0, some 60⟩]
    usage_records := [⟨1, some 1, 1, some 0, none, none⟩]
    next_record_id := 2 }

/-- The stored rate of every row of machine `machine_id` is absent or not
negative. -/
def RateNonneg (s : Store) (machine_id : Nat) : Prop :=
  ∀ m ∈ s.machines, m.id = machine_id → ∀ r ∈ m.hourly_rate, (0 : ℚ) ≤ r

instance (s : Store) (machine_id : Nat) : Decidable (RateNonneg s machine_id) := by
  unfold RateNonneg; infer_instance

/-! ## `PUT /machines/:id` -/

/-- Body of `PUT /machines/:id` (`src/routes/machines.js`; `src/app.js` registers
the same handler text after the router).  The outer `none` of a field is
`undefined`; for `member_id` and `hourly_rate` the inner `none` is `null`.  The
status, when given, is a string. -/
structure MachineEdit where
  status : Option String
  member_id : Option (Option Nat)
  hourly_rate : Option (Option ℚ)
  deriving DecidableEq

/-- Responses of `PUT /machines/:id` reached without a storage error. -/
inductive EditResult where
  | machineNotFound
  | sessionMustEnd (machine_id : Nat) (current_status : String)
  | updated
  deriving DecidableEq

/-- HTTP status of a `PUT /machines/:id` response. -/
def EditResult.status : EditResult → Nat
  | .machineNotFound => 404
  | .sessionMustEnd _ _ => 400
  | .updated => 200

/-- The `error` field of a `PUT /machines/:id` response, absent on success. -/
def EditResult.error : EditResult → Option String
  | .machineNotFound => some "机位不存在"
  | .sessionMustEnd _ _ => some "该机位有人正在使用，请先让用户下机后再修改状态"
  | .updated => none

/-- The statement built by `proceedWithUpdate`: `UPDATE machines SET` with
`status=?` when the status is defined, `member_id=?` when the member id is defined,
`start_time=?` when the status is in-use or undefined, `hourly_rate=?` when the
rate is defined, `WHERE id=?`. -/
def editWrites (s : Store) (id : Nat) (body : MachineEdit) (start_time : Option Int) : Store :=
  { s with
    machines := s.machines.map (fun m =>
      if m.id = id then
        { m with
          status := match body.status with
            | some status => status
            | none => m.status
          member_id := match body.member_id with
            | some member_id => member_id
            | none => m.member_id
          start_time :=
            if body.status = some statusInUse ∨ body.status = none then start_time
            else m.start_time
          hourly_rate := match body.hourly_rate with
            | some hourly_rate => hourly_rate
            | none => m.hourly_rate }
      else m) }

/-- The guard `machine.status === '使用中' && machine.member_id && status &&
status !== '使用中'`: a member id is truthy when it is neither `NULL` nor `0`, a
status when it is defined and not the empty string. -/
def editGuard (machine : Machine) (body : MachineEdit) : Prop :=
  machine.status = statusInUse ∧
    (∃ member_id ∈ machine.member_id, member_id ≠ 0) ∧
    (∃ status ∈ body.status, status ≠ "") ∧
    body.status ≠ some statusInUse

instance (machine : Machine) (body : MachineEdit) : Decidable (editGuard machine body) := by
  unfold editGuard; infer_instance

/-- The handler of `PUT /machines/:id`; `now` is the value of `new Date()` taken
for `start_time` when the requested status is in-use. -/
def updateMachine (s : Store) (id : Nat) (body : MachineEdit) (now : Int) : Store × EditResult :=
  let start_time : Option Int := if body.status = some statusInUse then some now else none
  match selectMachines s id with
  | [] => (s, .machineNotFound)
  | machine :: _ =>
    if editGuard machine body then
      match activeByMachine s id with
      | _ :: _ => (s, .sessionMustEnd id machine.status)
      | [] => (editWrites s id body start_time, .updated)
    else (editWrites s id body start_time, .updated)

/-! ## `PATCH /machines/:id/hourly-rate` -/

/-- The `hourly_rate` of the body of the rate edit as the handler sees it:
`undefined` or `null`, a value `parseFloat` turns into `NaN`, or the number
`parseFloat` returns. -/
inductive RateParam where
  | missing
  | notANumber
  | number (rate : ℚ)
  deriving DecidableEq

/-- Responses of `PATCH /machines/:id/hourly-rate` reached without a storage
error; the 200 response carries `results[0]` of the read-back query (id, machine
number, rate). -/
inductive RateResult where
  | missingRate
  | invalidRate
  | machineNotFound
  | updated (machine : Option (Nat × String × Option ℚ))
  deriving DecidableEq

/-- HTTP status of a rate-edit response. -/
def RateResult.status : RateResult → Nat
  | .missingRate => 400
  | .invalidRate => 400
  | .machineNotFound => 404
  | .updated _ => 200

/-- The write `UPDATE machines SET hourly_rate = ? WHERE id = ?`. -/
def rateWrites (s : Store) (id : Nat) (rate : ℚ) : Store :=
  { s with
    machines := s.machines.map (fun m =>
      if m.id = id then { m with hourly_rate := some rate } else m) }

/-- The handler of `PATCH /machines/:id/hourly-rate`: validation, the update,
the test of `affectedRows` (the rows the `WHERE` clause matches), the read-back
query. -/
def setHourlyRate (s : Store) (id : Nat) (hourly_rate : RateParam) : Store × RateResult :=
  match hourly_rate with
  | .missing => (s, .missingRate)
  | .notANumber => (s, .invalidRate)
  | .number rate =>
    if rate < 0 then (s, .invalidRate) else
    let affectedRows := (selectMachines s id).length
    let updated := rateWrites s id rate
    if affectedRows = 0 then (updated, .machineNotFound) else
    (updated,
     .updated ((selectMachines updated id).head?.map
       (fun m => (m.id, m.machine_number, m.hourly_rate))))

/-! ## `POST /api/members` -/

/-- The 201 response of `POST /api/members`: the id the insert received and the
body fields as sent. -/
structure CreatedMember where
  id : Nat
  name : String
  phone : String
  balance : Option ℚ
  deriving DecidableEq

/-- The handler of `POST /api/members` (`src/app.js`): `INSERT INTO members (name,
phone, balance)` with `balance || 0`, no check on the body.  `insertId` is the id
the database assigns to the row; a missing balance is `none`. -/
def createMember (s : Store) (insertId : Nat) (name phone : String) (balance : Option ℚ) :
    Store × CreatedMember :=
  ({ s with
     members := s.members ++
       [{ id := insertId, name := name, phone := phone,
          balance := match balance with
            | none => 0
            | some b => if b = 0 then 0 else b }] },
   { id := insertId, name := name, phone := phone, balance := balance })

/-! ## `DELETE /api/members/:id` -/

/-- Responses of `DELETE /api/members/:id` reached without a storage error. -/
inductive DeleteMemberResult where
  | memberNotFound
  | memberInUse
  | deleted
  deriving DecidableEq

/-- HTTP status of a member-deletion response. -/
def DeleteMemberResult.status : DeleteMemberResult → Nat
  | .memberNotFound => 404
  | .memberInUse => 400
  | .deleted => 200

/-- The three writes of the member deletion: `UPDATE machines SET member_id =
NULL, status = "空闲" WHERE member_id = ?`, `DELETE FROM usage_records WHERE
member_id = ?` and `DELETE FROM members WHERE id = ?`. -/
def deleteMemberWrites (s : Store) (id : Nat) : Store :=
  { s with
    machines := s.machines.map (fun m =>
      if m.member_id = some id then { m with member_id := none, status := statusFree } else m)
    usage_records := s.usage_records.filter (fun r => r.member_id ≠ some id)
    members := s.members.filter (fun m => m.id ≠ id) }

/-- The handler of `DELETE /api/members/:id` (`src/app.js`): the member must
exist, no machine row may be in use with the member as occupant (`SELECT id FROM
machines WHERE member_id = ? AND status = "使用中"`), then the three writes. -/
def deleteMember (s : Store) (id : Nat) : Store × DeleteMemberResult :=
  match selectMembers s id with
  | [] => (s, .memberNotFound)
  | _ :: _ =>
    match s.machines.filter (fun m => m.member_id = some id ∧ m.status = statusInUse) with
    | _ :: _ => (s, .memberInUse)
    | [] => (deleteMemberWrites s id, .deleted)

/-! ## `DELETE /usage-records/batch` -/

/-- Responses of the batch deletion reached without a storage error: the 400 for
active records carries their ids, the 200 carries `affectedRows`. -/
inductive BatchDeleteResult where
  | emptyIds
  | activeRecords (active_records : List Nat)
  | deleted (deleted_count : Nat)
  deriving DecidableEq

/-- HTTP status of a batch-deletion response. -/
def BatchDeleteResult.status : BatchDeleteResult → Nat
  | .emptyIds => 400
  | .activeRecords _ => 400
  | .deleted _ => 200

/-- The handler of `DELETE /usage-records/batch` with body `{ids}`: `SELECT id
FROM usage_records WHERE id IN (...) AND end_time IS NULL`, then `DELETE FROM
usage_records WHERE id IN (...)`. -/
def batchDelete (s : Store) (ids : List Nat) : Store × BatchDeleteResult :=
  if ids.length = 0 then (s, .emptyIds) else
  match s.usage_records.filter (fun r => r.id ∈ ids ∧ r.end_time = none) with
  | r :: rest => (s, .activeRecords ((r :: rest).map (fun r => r.id)))
  | [] =>
    ({ s with usage_records := s.usage_records.filter (fun r => r.id ∉ ids) },
     .deleted (s.usage_records.filter (fun r => r.id ∈ ids)).length)

/-! ## Further predicates -/

/-- Every active usage record sits at a machine row that is in use with the
record's member as occupant. -/
def ActiveRecordsSeated (s : Store) : Prop :=
  ∀ r ∈ s.usage_records, r.end_time = none →
    ∃ m ∈ s.machines, m.id = r.machine_id ∧ m.status = statusInUse ∧ m.member_id = r.member_id

instance (s : Store) : Decidable (ActiveRecordsSeated s) := by
  unfold ActiveRecordsSeated; infer_instance

/-- Every in-use row of machine `id` has a recorded occupant: a member id that is
neither `NULL` nor 0. -/
def OccupantRecorded (s : Store) (id : Nat) : Prop :=
  ∀ m ∈ s.machines, m.id = id → m.status = statusInUse → ∃ occupant ∈ m.member_id, occupant ≠ 0

instance (s : Store) (id : Nat) : Decidable (OccupantRecorded s id) := by
  unfold OccupantRecorded; infer_instance

/-! ## Two `/start` requests in flight -/

/-- The handler of `POST /start` when the rows its `SELECT`s return are those of
the store `snapshot` and its two writes reach the store `s`.  The handler reads
with plain `SELECT`s (no `FOR UPDATE`, no lock), so another transaction may commit
between its reads and its writes: `snapshot` is the store it read, `s` the store
it writes to, whose counter gives `insertId`.  With `snapshot = s` this is
`startSession s`. -/
def startSessionOn (snapshot s : Store) (member_id machine_id : Nat) (now : Int) :
    Store × StartResult :=
  if member_id = 0 ∨ machine_id = 0 then (s, .missingIds) else
  match selectMembers snapshot member_id with
  | [] => (s, .memberNotFound)
  | _ :: _ =>
    match activeByMember snapshot member_id with
    | _ :: _ => (s, .memberAlreadyActive)
    | [] =>
      match selectMachines snapshot machine_id with
      | [] => (s, .machineNotFound)
      | machine :: _ =>
        if machine.status ≠ statusFree then (s, .machineUnavailable machine.status) else
        (startWrites s member_id machine_id now,
         .created { id := s.next_record_id, member_id := member_id,
                    machine_id := machine_id, start_time := now })

/-! # Theorems -/

/-! ## Double arithmetic -/

theorem roundHalfEven_nonneg (x : ℚ) (h : 0 ≤ x) : 0 ≤ roundHalfEven x := by
  have hf : (0 : Int) ≤ ⌊x⌋ := Int.floor_nonneg.mpr h
  unfold roundHalfEven
  split
  · exact hf
  · split
    · omega
    · split
      · exact hf
      · omega

theorem roundDouble_zero : roundDouble 0 = 0 := by
  simp [roundDouble]

theorem roundDouble_nonneg (x : ℚ) (h : 0 ≤ x) : 0 ≤ roundDouble x := by
  unfold roundDouble
  split
  · exact le_refl 0
  · have hp : (0 : ℚ) < (2 : ℚ) ^ (max (binaryExponent |x|) (-1022) - 52) :=
      zpow_pos (by norm_num) _
    have hq : (0 : Int) ≤ roundHalfEven (x / (2 : ℚ) ^ (max (binaryExponent |x|) (-1022) - 52)) :=
      roundHalfEven_nonneg _ (div_nonneg h (le_of_lt hp))
    have hq' : (0 : ℚ) ≤
        (roundHalfEven (x / (2 : ℚ) ^ (max (binaryExponent |x|) (-1022) - 52)) : ℚ) := by
      exact_mod_cast hq
    exact mul_nonneg hq' (le_of_lt hp)

theorem computeFee_zero_duration (hourlyRate : ℚ) : computeFee 0 hourlyRate = 0 := by
  simp [computeFee, roundDouble_zero]

theorem computeFee_zero_rate (duration_minutes : Int) : computeFee duration_minutes 0 = 0 := by
  simp [computeFee, roundDouble_zero]

theorem computeFee_nonneg (duration_minutes : Int) (hourlyRate : ℚ)
    (hd : 0 ≤ duration_minutes) (hr : 0 ≤ hourlyRate) :
    0 ≤ computeFee duration_minutes hourlyRate := by
  unfold computeFee
  apply roundDouble_nonneg
  apply mul_nonneg
  · apply roundDouble_nonneg
    have : (0 : ℚ) ≤ (duration_minutes : ℚ) := by exact_mod_cast hd
    positivity
  · exact roundDouble_nonneg _ hr


/-! ## Case analysis of the handlers -/

theorem startPreconditions_iff (s : Store) (member_id machine_id : Nat) :
    StartPreconditions s member_id machine_id ↔
      selectMembers s member_id ≠ [] ∧ activeByMember s member_id = [] ∧
        ∃ machine rest, selectMachines s machine_id = machine :: rest ∧
          machine.status = statusFree := by
  unfold StartPreconditions
  cases selectMachines s machine_id with
  | nil => simp
  | cons machine rest => simp

theorem startSession_of_preconditions (s : Store) (member_id machine_id : Nat) (now : Int)
    (hm : member_id ≠ 0) (hk : machine_id ≠ 0) (h : StartPreconditions s member_id machine_id) :
    startSession s member_id machine_id now =
      (startWrites s member_id machine_id now,
       .created { id := s.next_record_id, member_id := member_id,
                  machine_id := machine_id, start_time := now }) := by
  obtain ⟨h1, h2, machine, rest, h3, h4⟩ := (startPreconditions_iff s member_id machine_id).mp h
  unfold startSession
  rw [if_neg (by simp [hm, hk]), h2, h3]
  cases hsel : selectMembers s member_id with
  | nil => exact absurd hsel h1
  | cons a l => simp [h4]

theorem startSession_of_not_preconditions (s : Store) (member_id machine_id : Nat) (now : Int)
    (h : ¬ StartPreconditions s member_id machine_id) :
    (startSession s member_id machine_id now).1 = s ∧
      (startSession s member_id machine_id now).2.status ≠ 201 := by
  by_cases hz : member_id = 0 ∨ machine_id = 0
  · simp [startSession, hz, StartResult.status]
  cases hsel : selectMembers s member_id with
  | nil => simp [startSession, hz, hsel, StartResult.status]
  | cons a l =>
    cases hact : activeByMember s member_id with
    | cons b l2 => simp [startSession, hz, hsel, hact, StartResult.status]
    | nil =>
      cases hmach : selectMachines s machine_id with
      | nil => simp [startSession, hz, hsel, hact, hmach, StartResult.status]
      | cons machine rest =>
        by_cases hst : machine.status = statusFree
        · exact absurd ((startPreconditions_iff s member_id machine_id).mpr
            ⟨by simp [hsel], hact, machine, rest, hmach, hst⟩) h
        · simp [startSession, hz, hsel, hact, hmach, hst, StartResult.status]

theorem startSession_cases (s : Store) (member_id machine_id : Nat) (now : Int) :
    (startSession s member_id machine_id now).1 = s ∨
    (member_id ≠ 0 ∧ machine_id ≠ 0 ∧ StartPreconditions s member_id machine_id ∧
      (startSession s member_id machine_id now).1 = startWrites s member_id machine_id now) := by
  by_cases h : StartPreconditions s member_id machine_id
  · by_cases hz : member_id = 0 ∨ machine_id = 0
    · left; unfold startSession; rw [if_pos hz]
    · right
      have hm : member_id ≠ 0 := fun e => hz (Or.inl e)
      have hk : machine_id ≠ 0 := fun e => hz (Or.inr e)
      exact ⟨hm, hk, h, by rw [startSession_of_preconditions s _ _ now hm hk h]⟩
  · exact Or.inl (startSession_of_not_preconditions s _ _ now h).1

theorem activeByMachine_head (s : Store) (k : Nat) (record : UsageRecord) (rest : List UsageRecord)
    (h : activeByMachine s k = record :: rest) :
    record ∈ s.usage_records ∧ record.machine_id = k ∧ record.end_time = none := by
  have hmem : record ∈ activeByMachine s k := by rw [h]; exact List.mem_cons_self _ _
  unfold activeByMachine at hmem
  rw [List.mem_filter] at hmem
  obtain ⟨h1, h2⟩ := hmem
  simp only [decide_eq_true_eq] at h2
  exact ⟨h1, h2.1, h2.2⟩

theorem endSession_eq (d : Bool) (s : Store) (k : Nat) (now : Int)
    (record : UsageRecord) (rest : List UsageRecord) (member_id : Nat) (startTime : Int)
    (machine : Machine) (mrest : List Machine) (member : Member) (merest : List Member)
    (hk : k ≠ 0) (hact : activeByMachine s k = record :: rest)
    (hmem : record.member_id = some member_id) (hm0 : member_id ≠ 0)
    (hst : record.start_time = some startTime)
    (hmach : selectMachines s k = machine :: mrest)
    (hsel : selectMembers s member_id = member :: merest) :
    endSession d s k now =
      if member.balance < sessionFee d machine startTime now then (s, .insufficientBalance)
      else (endWrites s record.id member_id k now (sessionFee d machine startTime now),
            .ended { id := record.id, member_id := member_id, machine_id := k,
                     start_time := startTime, end_time := now,
                     duration_minutes := durationMinutes startTime now,
                     hourly_rate := hourlyRateOrDefault d machine.hourly_rate,
                     fee := sessionFee d machine startTime now }) := by
  have hrec := (activeByMachine_head s k record rest hact).2.1
  unfold endSession
  rw [if_neg hk, hact]
  simp only [hmem, hm0, hst, hrec, hmach, hsel, if_false, sessionFee]

theorem endSession_cases (d : Bool) (s : Store) (k : Nat) (now : Int) :
    ((endSession d s k now).1 = s ∧ ∀ rec, (endSession d s k now).2 ≠ .ended rec) ∨
    ∃ record rest member_id startTime machine mrest member merest,
      k ≠ 0 ∧ activeByMachine s k = record :: rest ∧ record.member_id = some member_id ∧
      member_id ≠ 0 ∧ record.start_time = some startTime ∧
      selectMachines s k = machine :: mrest ∧ selectMembers s member_id = member :: merest ∧
      sessionFee d machine startTime now ≤ member.balance ∧
      endSession d s k now =
        (endWrites s record.id member_id k now (sessionFee d machine startTime now),
         .ended { id := record.id, member_id := member_id, machine_id := k,
                  start_time := startTime, end_time := now,
                  duration_minutes := durationMinutes startTime now,
                  hourly_rate := hourlyRateOrDefault d machine.hourly_rate,
                  fee := sessionFee d machine startTime now }) := by
  by_cases hk : k = 0
  · left; simp [endSession, hk]
  cases hact : activeByMachine s k with
  | nil => left; simp [endSession, hk, hact]
  | cons record rest =>
    have hrec := (activeByMachine_head s k record rest hact).2.1
    cases hmem : record.member_id with
    | none => left; simp [endSession, hk, hact, hmem]
    | some member_id =>
      by_cases hm0 : member_id = 0
      · left; simp [endSession, hk, hact, hmem, hm0]
      cases hst : record.start_time with
      | none => left; simp [endSession, hk, hact, hmem, hm0, hst]
      | some startTime =>
        cases hmach : selectMachines s k with
        | nil => left; simp [endSession, hk, hact, hmem, hm0, hst, hrec, hmach]
        | cons machine mrest =>
          cases hsel : selectMembers s member_id with
          | nil => left; simp [endSession, hk, hact, hmem, hm0, hst, hrec, hmach, hsel]
          | cons member merest =>
            have heq := endSession_eq d s k now record rest member_id startTime machine mrest
              member merest hk hact hmem hm0 hst hmach hsel
            by_cases hb : member.balance < sessionFee d machine startTime now
            · left; rw [heq, if_pos hb]; simp
            · right
              refine ⟨record, rest, member_id, startTime, machine, mrest, member, merest,
                hk, rfl, hmem, hm0, hst, rfl, hsel, not_lt.mp hb, ?_⟩
              rw [heq, if_neg hb]

/-! ## Effect of the writes on the exclusivity queries -/

theorem statusFree_ne_statusInUse : statusFree ≠ statusInUse := by decide

theorem activeByMachine_startWrites (s : Store) (m k : Nat) (now : Int) (j : Nat) :
    activeByMachine (startWrites s m k now) j =
      activeByMachine s j ++
        (if k = j then
          [{ id := s.next_record_id, member_id := some m, machine_id := k,
             start_time := some now, end_time := none, fee := none }]
         else []) := by
  by_cases h : k = j <;> simp [activeByMachine, startWrites, List.filter_append, h]

theorem activeByMember_startWrites (s : Store) (m k : Nat) (now : Int) (i : Nat) :
    activeByMember (startWrites s m k now) i =
      activeByMember s i ++
        (if m = i then
          [{ id := s.next_record_id, member_id := some m, machine_id := k,
             start_time := some now, end_time := none, fee := none }]
         else []) := by
  by_cases h : m = i <;> simp [activeByMember, startWrites, List.filter_append, h]

theorem activeByMachine_endWrites (s : Store) (id mem k : Nat) (now : Int) (fee : ℚ) (j : Nat) :
    activeByMachine (endWrites s id mem k now fee) j =
      (activeByMachine s j).filter (fun r => r.id ≠ id) := by
  unfold activeByMachine endWrites
  simp only
  induction s.usage_records with
  | nil => rfl
  | cons r l ih =>
    rw [List.map_cons, List.filter_cons, List.filter_cons, ih]
    by_cases hid : r.id = id <;> by_cases hp : r.machine_id = j ∧ r.end_time = none <;>
      simp [hid, hp]

theorem activeByMember_endWrites (s : Store) (id mem k : Nat) (now : Int) (fee : ℚ) (i : Nat) :
    activeByMember (endWrites s id mem k now fee) i =
      (activeByMember s i).filter (fun r => r.id ≠ id) := by
  unfold activeByMember endWrites
  simp only
  induction s.usage_records with
  | nil => rfl
  | cons r l ih =>
    rw [List.map_cons, List.filter_cons, List.filter_cons, ih]
    by_cases hid : r.id = id <;> by_cases hp : r.member_id = some i ∧ r.end_time = none <;>
      simp [hid, hp]

/-! ## Primary keys -/

theorem RecordKeys.eq_of_id_eq {s : Store} (h : RecordKeys s) {r1 r2 : UsageRecord}
    (h1 : r1 ∈ s.usage_records) (h2 : r2 ∈ s.usage_records) (hid : r1.id = r2.id) : r1 = r2 :=
  List.inj_on_of_nodup_map h.1 h1 h2 hid

theorem recordKeys_startWrites (s : Store) (m k : Nat) (now : Int) (h : RecordKeys s) :
    RecordKeys (startWrites s m k now) := by
  obtain ⟨hnd, hlt⟩ := h
  constructor
  · simp only [startWrites, List.map_append, List.map_cons, List.map_nil]
    rw [List.nodup_append]
    refine ⟨hnd, List.nodup_singleton _, ?_⟩
    intro a ha hb
    rw [List.mem_singleton] at hb
    rw [List.mem_map] at ha
    obtain ⟨r, hr, rfl⟩ := ha
    have := hlt r hr
    omega
  · intro r hr
    simp only [startWrites, List.mem_append, List.mem_singleton] at hr ⊢
    rcases hr with hr | rfl
    · have := hlt r hr; omega
    · simp

theorem recordKeys_endWrites (s : Store) (id mem k : Nat) (now : Int) (fee : ℚ)
    (h : RecordKeys s) : RecordKeys (endWrites s id mem k now fee) := by
  obtain ⟨hnd, hlt⟩ := h
  have hids : (endWrites s id mem k now fee).usage_records.map (fun r => r.id) =
      s.usage_records.map (fun r => r.id) := by
    simp only [endWrites, List.map_map]
    apply List.map_congr_left
    intro r _
    by_cases hid : r.id = id <;> simp [hid]
  constructor
  · rw [hids]; exact hnd
  · intro r hr
    simp only [endWrites, List.mem_map] at hr ⊢
    obtain ⟨r0, hr0, rfl⟩ := hr
    have := hlt r0 hr0
    by_cases hid : r0.id = id <;> simp [hid] <;> omega

theorem recordKeys_step (d : Bool) (s : Store) (req : Request) (h : RecordKeys s) :
    RecordKeys (step d s req) := by
  cases req with
  | start m k now =>
    rcases startSession_cases s m k now with he | ⟨_, _, _, he⟩
    · simp only [step]; rw [he]; exact h
    · simp only [step]; rw [he]; exact recordKeys_startWrites s m k now h
  | finish k now =>
    rcases endSession_cases d s k now with ⟨he, _⟩ | ⟨record, rest, mem, st, mc, mrest, mb, merest,
      _, _, _, _, _, _, _, _, he⟩
    · simp only [step]; rw [he]; exact h
    · simp only [step]; rw [he]; exact recordKeys_endWrites s _ _ _ _ _ h

/-- Finalising the head of a machine's active records leaves the active records
of every other machine as they were. -/
theorem activeByMachine_filter_other (s : Store) (h : RecordKeys s) (k j : Nat)
    (record : UsageRecord) (rest : List UsageRecord)
    (hact : activeByMachine s k = record :: rest) (hjk : j ≠ k) :
    (activeByMachine s j).filter (fun r => r.id ≠ record.id) = activeByMachine s j := by
  obtain ⟨hin, hmach, _⟩ := activeByMachine_head s k record rest hact
  rw [List.filter_eq_self]
  intro r hr
  unfold activeByMachine at hr
  rw [List.mem_filter] at hr
  simp only [decide_eq_true_eq] at hr ⊢
  intro hid
  have := h.eq_of_id_eq hr.1 hin hid
  rw [this, hmach] at hr
  exact hjk hr.2.1.symm

/-- A machine with a single active record has none once that record is
finalised. -/
theorem activeByMachine_filter_self (s : Store) (k : Nat)
    (record : UsageRecord) (rest : List UsageRecord)
    (hact : activeByMachine s k = record :: rest) (hlen : (activeByMachine s k).length ≤ 1) :
    (activeByMachine s k).filter (fun r => r.id ≠ record.id) = [] := by
  rw [hact] at hlen ⊢
  cases rest with
  | nil => simp
  | cons a l => simp at hlen

theorem selectMachines_head (s : Store) (k : Nat) (machine : Machine) (rest : List Machine)
    (h : selectMachines s k = machine :: rest) : machine ∈ s.machines ∧ machine.id = k := by
  have hmem : machine ∈ selectMachines s k := by rw [h]; exact List.mem_cons_self _ _
  unfold selectMachines at hmem
  rw [List.mem_filter] at hmem
  simpa using hmem

theorem selectMembers_head (s : Store) (i : Nat) (member : Member) (rest : List Member)
    (h : selectMembers s i = member :: rest) : member ∈ s.members ∧ member.id = i := by
  have hmem : member ∈ selectMembers s i := by rw [h]; exact List.mem_cons_self _ _
  unfold selectMembers at hmem
  rw [List.mem_filter] at hmem
  simpa using hmem

/-! ## Machine exclusivity -/

theorem machineInv_startWrites (s : Store) (m k : Nat) (now : Int)
    (hpre : StartPreconditions s m k)
    (hex : MachineExclusive s) (hno : NoSharedMachine s) :
    MachineExclusive (startWrites s m k now) ∧ NoSharedMachine (startWrites s m k now) := by
  obtain ⟨_, _, machine, rest, hsel, hfree⟩ := (startPreconditions_iff s m k).mp hpre
  obtain ⟨hin, hid⟩ := selectMachines_head s k machine rest hsel
  have hzero : (activeByMachine s k).length = 0 := by
    have h1 := hex machine hin
    have h2 := hno machine hin
    rw [hid] at h1 h2
    have h3 : ¬ (activeByMachine s k).length = 1 := fun e =>
      statusFree_ne_statusInUse (hfree ▸ h1.mpr e)
    omega
  have key : ∀ mc ∈ (startWrites s m k now).machines,
      (mc.status = statusInUse ↔ (activeByMachine (startWrites s m k now) mc.id).length = 1) ∧
      (activeByMachine (startWrites s m k now) mc.id).length ≤ 1 := by
    intro mc hmc
    simp only [startWrites, List.mem_map] at hmc
    obtain ⟨m0, hm0, rfl⟩ := hmc
    by_cases hk : m0.id = k
    · rw [if_pos hk]
      simp only [activeByMachine_startWrites, hk, if_true, List.length_append, hzero,
        List.length_singleton]
      simp
    · rw [if_neg hk]
      have hk2 : ¬ k = m0.id := fun e => hk e.symm
      simp only [activeByMachine_startWrites, hk2, if_false, List.append_nil]
      exact ⟨hex m0 hm0, hno m0 hm0⟩
  exact ⟨fun mc hmc => (key mc hmc).1, fun mc hmc => (key mc hmc).2⟩

theorem machineInv_endWrites (s : Store) (k mem : Nat) (now : Int) (fee : ℚ)
    (record : UsageRecord) (rest : List UsageRecord) (machine : Machine) (mrest : List Machine)
    (hact : activeByMachine s k = record :: rest)
    (hsel : selectMachines s k = machine :: mrest)
    (hkeys : RecordKeys s) (hex : MachineExclusive s) (hno : NoSharedMachine s) :
    MachineExclusive (endWrites s record.id mem k now fee) ∧
      NoSharedMachine (endWrites s record.id mem k now fee) := by
  obtain ⟨hin, hid⟩ := selectMachines_head s k machine mrest hsel
  have hlen : (activeByMachine s k).length ≤ 1 := by
    have := hno machine hin
    rwa [hid] at this
  have key : ∀ mc ∈ (endWrites s record.id mem k now fee).machines,
      (mc.status = statusInUse ↔
        (activeByMachine (endWrites s record.id mem k now fee) mc.id).length = 1) ∧
      (activeByMachine (endWrites s record.id mem k now fee) mc.id).length ≤ 1 := by
    intro mc hmc
    simp only [endWrites, List.mem_map] at hmc
    obtain ⟨m0, hm0, rfl⟩ := hmc
    by_cases hk : m0.id = k
    · rw [if_pos hk]
      simp only [activeByMachine_endWrites, hk, activeByMachine_filter_self s k record rest hact hlen,
        List.length_nil]
      simp [statusFree_ne_statusInUse]
    · rw [if_neg hk]
      simp only [activeByMachine_endWrites,
        activeByMachine_filter_other s hkeys k m0.id record rest hact hk]
      exact ⟨hex m0 hm0, hno m0 hm0⟩
  exact ⟨fun mc hmc => (key mc hmc).1, fun mc hmc => (key mc hmc).2⟩

theorem machineInv_step (d : Bool) (s : Store) (req : Request)
    (h : RecordKeys s ∧ MachineExclusive s ∧ NoSharedMachine s) :
    RecordKeys (step d s req) ∧ MachineExclusive (step d s req) ∧
      NoSharedMachine (step d s req) := by
  refine ⟨recordKeys_step d s req h.1, ?_⟩
  obtain ⟨hkeys, hex, hno⟩ := h
  cases req with
  | start m k now =>
    rcases startSession_cases s m k now with he | ⟨_, _, hpre, he⟩
    · simp only [step]; rw [he]; exact ⟨hex, hno⟩
    · simp only [step]; rw [he]; exact machineInv_startWrites s m k now hpre hex hno
  | finish k now =>
    rcases endSession_cases d s k now with ⟨he, _⟩ | ⟨record, rest, mem, st, mc, mrest, mb, merest,
      _, hact, _, _, _, hsel, _, _, he⟩
    · simp only [step]; rw [he]; exact ⟨hex, hno⟩
    · simp only [step]; rw [he]
      exact machineInv_endWrites s k mem now _ record rest mc mrest hact hsel hkeys hex hno

theorem machineInv_run (d : Bool) (reqs : List Request) (s : Store)
    (h : RecordKeys s ∧ MachineExclusive s ∧ NoSharedMachine s) :
    RecordKeys (run d s reqs) ∧ MachineExclusive (run d s reqs) ∧
      NoSharedMachine (run d s reqs) := by
  induction reqs generalizing s with
  | nil => exact h
  | cons req reqs ih => exact ih (step d s req) (machineInv_step d s req h)

/-! ## Member exclusivity -/

theorem activeByMember_step_le (d : Bool) (s : Store) (req : Request) (i : Nat)
    (h : (activeByMember s i).length ≤ 1) : (activeByMember (step d s req) i).length ≤ 1 := by
  cases req with
  | start m k now =>
    rcases startSession_cases s m k now with he | ⟨_, _, hpre, he⟩
    · simp only [step]; rw [he]; exact h
    · simp only [step]; rw [he, activeByMember_startWrites]
      by_cases hmi : m = i
      · have hnone : activeByMember s i = [] := hmi ▸ hpre.2.1
        simp [hmi, hnone]
      · simpa [hmi] using h
  | finish k now =>
    rcases endSession_cases d s k now with ⟨he, _⟩ | ⟨record, rest, mem, st, mc, mrest, mb, merest,
      _, _, _, _, _, _, _, _, he⟩
    · simp only [step]; rw [he]; exact h
    · simp only [step]; rw [he, activeByMember_endWrites]
      exact le_trans (List.length_filter_le _ _) h

theorem members_ids_step (d : Bool) (s : Store) (req : Request) :
    (step d s req).members.map (fun m => m.id) = s.members.map (fun m => m.id) := by
  cases req with
  | start m k now =>
    rcases startSession_cases s m k now with he | ⟨_, _, _, he⟩
    · simp only [step]; rw [he]
    · simp only [step]; rw [he]; rfl
  | finish k now =>
    rcases endSession_cases d s k now with ⟨he, _⟩ | ⟨record, rest, mem, st, mc, mrest, mb, merest,
      _, _, _, _, _, _, _, _, he⟩
    · simp only [step]; rw [he]
    · simp only [step]; rw [he]
      simp only [endWrites, List.map_map]
      apply List.map_congr_left
      intro r _
      by_cases hid : r.id = mem <;> simp [hid]

theorem memberExclusive_step (d : Bool) (s : Store) (req : Request) (h : MemberExclusive s) :
    MemberExclusive (step d s req) := by
  intro m hm
  have hid : m.id ∈ (step d s req).members.map (fun m => m.id) := List.mem_map_of_mem _ hm
  rw [members_ids_step, List.mem_map] at hid
  obtain ⟨m0, hm0, he⟩ := hid
  rw [← he]
  exact activeByMember_step_le d s req m0.id (h m0 hm0)

/-! ## Occupant consistency -/

theorem occupant_startWrites (s : Store) (m k : Nat) (now : Int)
    (h : OccupantConsistent s) : OccupantConsistent (startWrites s m k now) := by
  intro mc hmc
  simp only [startWrites, List.mem_map] at hmc
  obtain ⟨m0, hm0, rfl⟩ := hmc
  by_cases hk : m0.id = k
  · rw [if_pos hk]
    refine ⟨fun _ => ?_, by simp, by simp⟩
    refine ⟨{ id := s.next_record_id, member_id := some m, machine_id := k,
              start_time := some now, end_time := none, fee := none }, ?_, rfl, rfl⟩
    rw [activeByMachine_startWrites]
    simp [hk]
  · rw [if_neg hk]
    obtain ⟨h1, h2, h3⟩ := h m0 hm0
    refine ⟨fun hp => ?_, h2, h3⟩
    obtain ⟨r, hr, hr1, hr2⟩ := h1 hp
    refine ⟨r, ?_, hr1, hr2⟩
    rw [activeByMachine_startWrites]
    exact List.mem_append_left _ hr

theorem occupant_endWrites (s : Store) (k mem : Nat) (now : Int) (fee : ℚ)
    (record : UsageRecord) (rest : List UsageRecord)
    (hact : activeByMachine s k = record :: rest)
    (hkeys : RecordKeys s) (h : OccupantConsistent s) :
    OccupantConsistent (endWrites s record.id mem k now fee) := by
  intro mc hmc
  simp only [endWrites, List.mem_map] at hmc
  obtain ⟨m0, hm0, rfl⟩ := hmc
  by_cases hk : m0.id = k
  · rw [if_pos hk]
    simp [statusFree_ne_statusInUse]
  · rw [if_neg hk]
    obtain ⟨h1, h2, h3⟩ := h m0 hm0
    refine ⟨fun hp => ?_, h2, h3⟩
    rw [activeByMachine_endWrites, activeByMachine_filter_other s hkeys k m0.id record rest hact hk]
    exact h1 hp

theorem occupant_step (d : Bool) (s : Store) (req : Request)
    (h : RecordKeys s ∧ OccupantConsistent s) :
    RecordKeys (step d s req) ∧ OccupantConsistent (step d s req) := by
  refine ⟨recordKeys_step d s req h.1, ?_⟩
  obtain ⟨hkeys, hocc⟩ := h
  cases req with
  | start m k now =>
    rcases startSession_cases s m k now with he | ⟨_, _, _, he⟩
    · simp only [step]; rw [he]; exact hocc
    · simp only [step]; rw [he]; exact occupant_startWrites s m k now hocc
  | finish k now =>
    rcases endSession_cases d s k now with ⟨he, _⟩ | ⟨record, rest, mem, st, mc, mrest, mb, merest,
      _, hact, _, _, _, _, _, _, he⟩
    · simp only [step]; rw [he]; exact hocc
    · simp only [step]; rw [he]
      exact occupant_endWrites s k mem now _ record rest hact hkeys hocc

theorem memberExclusive_run (d : Bool) (reqs : List Request) (s : Store)
    (h : MemberExclusive s) : MemberExclusive (run d s reqs) := by
  induction reqs generalizing s with
  | nil => exact h
  | cons req reqs ih => exact ih (step d s req) (memberExclusive_step d s req h)

theorem occupant_run (d : Bool) (reqs : List Request) (s : Store)
    (h : RecordKeys s ∧ OccupantConsistent s) :
    RecordKeys (run d s reqs) ∧ OccupantConsistent (run d s reqs) := by
  induction reqs generalizing s with
  | nil => exact h
  | cons req reqs ih => exact ih (step d s req) (occupant_step d s req h)

/-! ## The claims -/

/-- C1, as stated, fails: in `sharedStore` (unique record ids) every machine is
in use iff exactly one active record references it, since free machine 1 has two;
after member 3 starts a session on machine 1 the machine is in use with three
active records. -/
theorem machine_exclusivity_counterexample :
    RecordKeys sharedStore ∧ MachineExclusive sharedStore ∧
      ¬ MachineExclusive (run false sharedStore [Request.start 3 1 1000]) := by
  decide!

/-- C1 (amended): from every store with unique usage-record ids below the
auto-increment counter in which every machine is in use iff exactly one active
record references it and no machine is referenced by more than one active record,
every finite sequence of start and end requests, failing ones included, leads to a
store with the same two properties. -/
theorem machine_exclusivity_invariant (decimalStrings : Bool) (s : Store) (reqs : List Request)
    (hkeys : RecordKeys s) (hex : MachineExclusive s) (hno : NoSharedMachine s) :
    MachineExclusive (run decimalStrings s reqs) ∧ NoSharedMachine (run decimalStrings s reqs) :=
  (machineInv_run decimalStrings reqs s ⟨hkeys, hex, hno⟩).2

/-- Witness of C1 (amended): a start, a refused start on the now busy machine, an
end, and a refused end, from `demoStore`. -/
theorem machine_exclusivity_invariant_witness :
    (RecordKeys demoStore ∧ MachineExclusive demoStore ∧ NoSharedMachine demoStore) ∧
      MachineExclusive (run false demoStore
        [Request.start 1 1 0, Request.start 2 1 5, Request.finish 1 5400000,
         Request.finish 1 5400001]) ∧
      NoSharedMachine (run false demoStore
        [Request.start 1 1 0, Request.start 2 1 5, Request.finish 1 5400000,
         Request.finish 1 5400001]) :=
  ⟨by decide!, machine_exclusivity_invariant false demoStore _ (by decide!) (by decide!)
    (by decide!)⟩

/-- C2: from every store in which every member has at most one active usage
record, every finite sequence of start and end requests, failing ones included,
leads to a store in which every member has at most one active usage record. -/
theorem member_exclusivity_invariant (decimalStrings : Bool) (s : Store) (reqs : List Request)
    (h : MemberExclusive s) : MemberExclusive (run decimalStrings s reqs) :=
  memberExclusive_run decimalStrings reqs s h

/-- Witness of C2: member 1 starts on machine 1, is refused on machine 2, ends,
and starts on machine 2. -/
theorem member_exclusivity_invariant_witness :
    MemberExclusive demoStore ∧
      MemberExclusive (run true demoStore
        [Request.start 1 1 0, Request.start 1 2 5, Request.finish 1 60000,
         Request.start 1 2 60001]) :=
  ⟨by decide!, member_exclusivity_invariant true demoStore _ (by decide!)⟩

/-- C3: for a request whose two ids are present (non-zero), `/start` reports the
first failing check in the order member exists (404), member has no active record
(400), machine exists (404), machine is free (400); the last response carries the
machine's current status. -/
theorem start_precondition_order (s : Store) (member_id machine_id : Nat) (now : Int)
    (hm : member_id ≠ 0) (hk : machine_id ≠ 0) :
    (selectMembers s member_id = [] →
      startSession s member_id machine_id now = (s, .memberNotFound) ∧
      (startSession s member_id machine_id now).2.status = 404) ∧
    (selectMembers s member_id ≠ [] → activeByMember s member_id ≠ [] →
      startSession s member_id machine_id now = (s, .memberAlreadyActive) ∧
      (startSession s member_id machine_id now).2.status = 400) ∧
    (selectMembers s member_id ≠ [] → activeByMember s member_id = [] →
      selectMachines s machine_id = [] →
      startSession s member_id machine_id now = (s, .machineNotFound) ∧
      (startSession s member_id machine_id now).2.status = 404) ∧
    (∀ machine rest, selectMembers s member_id ≠ [] → activeByMember s member_id = [] →
      selectMachines s machine_id = machine :: rest → machine.status ≠ statusFree →
      startSession s member_id machine_id now = (s, .machineUnavailable machine.status) ∧
      (startSession s member_id machine_id now).2.status = 400 ∧
      (startSession s member_id machine_id now).2.error =
        some ("该机位不可用，当前状态: " ++ machine.status)) := by
  have hz : ¬ (member_id = 0 ∨ machine_id = 0) := by simp [hm, hk]
  refine ⟨?_, ?_, ?_, ?_⟩
  · intro h1
    simp [startSession, hz, h1, StartResult.status]
  · intro h1 h2
    cases hsel : selectMembers s member_id with
    | nil => exact absurd hsel h1
    | cons a l =>
      cases hact : activeByMember s member_id with
      | nil => exact absurd hact h2
      | cons b l2 => simp [startSession, hz, hsel, hact, StartResult.status]
  · intro h1 h2 h3
    cases hsel : selectMembers s member_id with
    | nil => exact absurd hsel h1
    | cons a l => simp [startSession, hz, hsel, h2, h3, StartResult.status]
  · intro machine rest h1 h2 h3 h4
    cases hsel : selectMembers s member_id with
    | nil => exact absurd hsel h1
    | cons a l => simp [startSession, hz, hsel, h2, h3, h4, StartResult.status, StartResult.error]

/-- Witness of C3: member 9 does not exist and machine 3 is in use; the response
is the missing member. -/
theorem start_precondition_order_witness :
    selectMembers demoStore 9 = [] ∧
      (∃ machine rest, selectMachines demoStore 3 = machine :: rest ∧
        machine.status = statusInUse) ∧
      startSession demoStore 9 3 7 = (demoStore, .memberNotFound) ∧
      (startSession demoStore 9 3 7).2.status = 404 :=
  ⟨by decide!, ⟨_, _, rfl, rfl⟩,
    (start_precondition_order demoStore 9 3 7 (by decide) (by decide)).1 (by decide!)⟩

/-- C4: when the ids are present and the four preconditions hold, `/start`
answers 201, appends exactly one usage record (fresh id, the given member and
machine, `start_time = now`, no `end_time`, no `fee`), returns that record, puts
every row of the target machine in use with the member as occupant and the same
`now` as session start, and leaves the other machines and all members as they
were. -/
theorem start_success_effects (s : Store) (member_id machine_id : Nat) (now : Int)
    (hm : member_id ≠ 0) (hk : machine_id ≠ 0)
    (hpre : StartPreconditions s member_id machine_id) :
    (startSession s member_id machine_id now).2 =
        .created { id := s.next_record_id, member_id := member_id,
                   machine_id := machine_id, start_time := now } ∧
      (startSession s member_id machine_id now).2.status = 201 ∧
      (startSession s member_id machine_id now).1.usage_records =
        s.usage_records ++
          [{ id := s.next_record_id, member_id := some member_id, machine_id := machine_id,
             start_time := some now, end_time := none, fee := none }] ∧
      (∃ mc ∈ (startSession s member_id machine_id now).1.machines, mc.id = machine_id) ∧
      (∀ mc ∈ (startSession s member_id machine_id now).1.machines, mc.id = machine_id →
        mc.status = statusInUse ∧ mc.member_id = some member_id ∧ mc.start_time = some now) ∧
      (startSession s member_id machine_id now).1.machines =
        s.machines.map (fun mc =>
          if mc.id = machine_id then
            { mc with status := statusInUse, member_id := some member_id,
                      start_time := some now }
          else mc) ∧
      (startSession s member_id machine_id now).1.members = s.members := by
  rw [startSession_of_preconditions s member_id machine_id now hm hk hpre]
  obtain ⟨_, _, machine, rest, hsel, _⟩ :=
    (startPreconditions_iff s member_id machine_id).mp hpre
  obtain ⟨hin, hid⟩ := selectMachines_head s machine_id machine rest hsel
  refine ⟨rfl, rfl, rfl, ?_, ?_, rfl, rfl⟩
  · refine ⟨{ machine with status := statusInUse, member_id := some member_id,
                           start_time := some now }, ?_, hid⟩
    simp only [startWrites, List.mem_map]
    exact ⟨machine, hin, by rw [if_pos hid]⟩
  · intro mc hmc hmcid
    simp only [startWrites, List.mem_map] at hmc
    obtain ⟨m0, _, rfl⟩ := hmc
    by_cases h0 : m0.id = machine_id
    · rw [if_pos h0]; exact ⟨rfl, rfl, rfl⟩
    · rw [if_neg h0] at hmcid; exact absurd hmcid h0

/-- Witness of C4: member 1 starts on free machine 1 of `demoStore` at time 42. -/
theorem start_success_effects_witness :
    StartPreconditions demoStore 1 1 ∧
      (startSession demoStore 1 1 42).2 =
        .created { id := 2, member_id := 1, machine_id := 1, start_time := 42 } ∧
      (startSession demoStore 1 1 42).1.usage_records =
        demoStore.usage_records ++ [⟨2, some 1, 1, some 42, none, none⟩] :=
  have hpre : StartPreconditions demoStore 1 1 := by decide!
  have h := start_success_effects demoStore 1 1 42 (by decide) (by decide) hpre
  ⟨hpre, h.1, h.2.2.1⟩

/-- C5: when `/start` fails a check (an id is missing from the request, the member
is missing or already active, the machine is missing or not free) the store after
the request is the store before it and no record is returned; so the usage
records and every machine's status, occupant and session start are unchanged. -/
theorem start_failure_no_effect (s : Store) (member_id machine_id : Nat) (now : Int)
    (h : member_id = 0 ∨ machine_id = 0 ∨ ¬ StartPreconditions s member_id machine_id) :
    (startSession s member_id machine_id now).1 = s ∧
      (startSession s member_id machine_id now).2.status ≠ 201 := by
  by_cases hz : member_id = 0 ∨ machine_id = 0
  · simp [startSession, hz, StartResult.status]
  · rcases h with h | h | h
    · exact absurd (Or.inl h) hz
    · exact absurd (Or.inr h) hz
    · exact startSession_of_not_preconditions s member_id machine_id now h

/-- Witness of C5: member 1 asks for machine 3 of `demoStore`, which is in use. -/
theorem start_failure_no_effect_witness :
    ¬ StartPreconditions demoStore 1 3 ∧
      (startSession demoStore 1 3 42).1 = demoStore ∧
      (startSession demoStore 1 3 42).2 = .machineUnavailable statusInUse :=
  have hpre : ¬ StartPreconditions demoStore 1 3 := by decide!
  ⟨hpre, (start_failure_no_effect demoStore 1 3 42 (Or.inr (Or.inr hpre))).1, by decide!⟩

/-- C6: when `/end` answers 200 with `rec`, the record finalised is the first
active record of the machine; it receives `end_time = now` and the computed fee,
the balance of the record's member is lowered by exactly that fee, the machine
becomes free with no occupant and no session start, and every usage record with
another id, every member with another id and every machine with another id is
unchanged. -/
theorem end_success_effects (decimalStrings : Bool) (s : Store) (machine_id : Nat) (now : Int)
    (rec : EndedRecord) (h : (endSession decimalStrings s machine_id now).2 = .ended rec) :
    (∃ record rest machine mrest startTime,
        activeByMachine s machine_id = record :: rest ∧
        selectMachines s machine_id = machine :: mrest ∧
        record.id = rec.id ∧ record.member_id = some rec.member_id ∧
        record.start_time = some startTime ∧
        rec.fee = computeFee (durationMinutes startTime now)
          (hourlyRateOrDefault decimalStrings machine.hourly_rate)) ∧
      rec.machine_id = machine_id ∧ rec.end_time = now ∧
      (endSession decimalStrings s machine_id now).1.usage_records =
        s.usage_records.map (fun r =>
          if r.id = rec.id then { r with end_time := some now, fee := some rec.fee } else r) ∧
      (endSession decimalStrings s machine_id now).1.members =
        s.members.map (fun m =>
          if m.id = rec.member_id then { m with balance := m.balance - rec.fee } else m) ∧
      (endSession decimalStrings s machine_id now).1.machines =
        s.machines.map (fun m =>
          if m.id = machine_id then
            { m with status := statusFree, member_id := none, start_time := none }
          else m) ∧
      (endSession decimalStrings s machine_id now).1.next_record_id = s.next_record_id := by
  rcases endSession_cases decimalStrings s machine_id now with he |
    ⟨record, rest, mem, st, mc, mrest, mb, merest, hk, hact, hmem, hm0, hst, hsel, hmsel, hfee, he⟩
  · exact absurd h (he.2 rec)
  · rw [he] at h ⊢
    simp only [EndResult.ended.injEq] at h
    subst h
    exact ⟨⟨record, rest, mc, mrest, st, hact, hsel, rfl, hmem, hst, rfl⟩, rfl, rfl, rfl, rfl,
      rfl, rfl⟩

/-- Witness of C6: machine 3 of `demoStore` is closed after six seconds; member 3
pays one minute at rate 10. -/
theorem end_success_effects_witness :
    (endSession false demoStore 3 6000).2 = .ended ⟨1, 3, 3, 0, 6000, 1, 10, computeFee 1 10⟩ ∧
      (endSession false demoStore 3 6000).1.usage_records =
        demoStore.usage_records.map (fun r =>
          if r.id = 1 then { r with end_time := some 6000, fee := some (computeFee 1 10) } else r) ∧
      (endSession false demoStore 3 6000).1.members =
        demoStore.members.map (fun m =>
          if m.id = 3 then { m with balance := m.balance - computeFee 1 10 } else m) :=
  have h : (endSession false demoStore 3 6000).2 = .ended ⟨1, 3, 3, 0, 6000, 1, 10, computeFee 1 10⟩ := by
    decide!
  have e := end_success_effects false demoStore 3 6000 _ h
  ⟨h, e.2.2.2.1, e.2.2.2.2.1⟩

/-- C7: when the checks before the balance check pass (machine id present, an
active record with a member and a start time, the machine row and the member row
exist), `/end` fails with the insufficient-balance response and leaves the store
as it was if the member's balance is below the computed fee, and otherwise
answers 200, so it does not fail with insufficient balance. -/
theorem end_insufficient_balance (decimalStrings : Bool) (s : Store) (machine_id : Nat)
    (now : Int) (record : UsageRecord) (rest : List UsageRecord) (member_id : Nat)
    (startTime : Int) (machine : Machine) (mrest : List Machine) (member : Member)
    (merest : List Member)
    (hk : machine_id ≠ 0) (hact : activeByMachine s machine_id = record :: rest)
    (hmem : record.member_id = some member_id) (hm0 : member_id ≠ 0)
    (hst : record.start_time = some startTime)
    (hmach : selectMachines s machine_id = machine :: mrest)
    (hsel : selectMembers s member_id = member :: merest) :
    (member.balance < computeFee (durationMinutes startTime now)
        (hourlyRateOrDefault decimalStrings machine.hourly_rate) →
      endSession decimalStrings s machine_id now = (s, .insufficientBalance) ∧
      (endSession decimalStrings s machine_id now).2.status = 400 ∧
      (endSession decimalStrings s machine_id now).2.error = some "会员余额不足，请先充值") ∧
    (computeFee (durationMinutes startTime now)
        (hourlyRateOrDefault decimalStrings machine.hourly_rate) ≤ member.balance →
      (endSession decimalStrings s machine_id now).2 ≠ .insufficientBalance ∧
      (endSession decimalStrings s machine_id now).2.status = 200) := by
  have heq := endSession_eq decimalStrings s machine_id now record rest member_id startTime
    machine mrest member merest hk hact hmem hm0 hst hmach hsel
  unfold sessionFee at heq
  constructor
  · intro hlt
    rw [heq, if_pos hlt]
    exact ⟨rfl, rfl, rfl⟩
  · intro hle
    rw [heq, if_neg (not_lt.mpr hle)]
    exact ⟨by simp, rfl⟩

/-- Witness of C7: machine 3 of `demoStore` is closed after 90 minutes at rate 10;
the fee 15 exceeds the balance 1 of member 3.  In `boundarySessionStore` machine 1
is closed after 31 minutes at rate 60: the fee is the double
`(31 / 60) * 60 = 31.000000000000004`, above the balance 31, and the request is
refused. -/
theorem end_insufficient_balance_witness :
    (1 : ℚ) < computeFee (durationMinutes 0 5400000) (hourlyRateOrDefault false (some 10)) ∧
      endSession false demoStore 3 5400000 = (demoStore, .insufficientBalance) ∧
      computeFee (durationMinutes 0 1860000) (hourlyRateOrDefault false (some 60)) =
        31 + 1 / 2 ^ 48 ∧
      endSession false boundarySessionStore 1 1860000 =
        (boundarySessionStore, .insufficientBalance) :=
  have hlt : (1 : ℚ) < computeFee (durationMinutes 0 5400000)
      (hourlyRateOrDefault false (some 10)) := by decide!
  have hfee : computeFee (durationMinutes 0 1860000) (hourlyRateOrDefault false (some 60)) =
      31 + 1 / 2 ^ 48 := by decide!
  have hlt2 : (31 : ℚ) < computeFee (durationMinutes 0 1860000)
      (hourlyRateOrDefault false (some 60)) := by decide!
  ⟨hlt, ((end_insufficient_balance false demoStore 3 5400000
      ⟨1, some 3, 3, some 0, none, none⟩ [] 3 0
      ⟨3, "A03", statusInUse, some 3, some 0, some 10⟩ []
      ⟨3, "丙", "13800000003", 1⟩ []
      (by decide) (by decide!) rfl (by decide) rfl (by decide!) (by decide!)).1 hlt).1,
    hfee,
    ((end_insufficient_balance false boundarySessionStore 1 1860000
      ⟨1, some 1, 1, some 0, none, none⟩ [] 1 0
      ⟨1, "A01", statusInUse, some 1, some 0, some 60⟩ []
      ⟨1, "甲", "13800000001", 31⟩ []
      (by decide) (by decide!) rfl (by decide) rfl (by decide!) (by decide!)).1 hlt2).1⟩

/-- C8: `/end` for a present (non-zero) machine id with no active usage record,
whether or not a machine with that id exists, fails with the no-active-session
response (400) and leaves the store as it was. -/
theorem end_without_active_record (decimalStrings : Bool) (s : Store) (machine_id : Nat)
    (now : Int) (hk : machine_id ≠ 0) (h : activeByMachine s machine_id = []) :
    endSession decimalStrings s machine_id now = (s, .noActiveRecord) ∧
      (endSession decimalStrings s machine_id now).2.status = 400 ∧
      (endSession decimalStrings s machine_id now).2.error = some "未找到未下机的记录" := by
  have he : endSession decimalStrings s machine_id now = (s, .noActiveRecord) := by
    unfold endSession
    rw [if_neg hk, h]
  rw [he]
  exact ⟨rfl, rfl, rfl⟩

/-- Witness of C8: `demoStore` has no machine 99. -/
theorem end_without_active_record_witness :
    selectMachines demoStore 99 = [] ∧
      endSession true demoStore 99 5 = (demoStore, .noActiveRecord) :=
  ⟨by decide!, (end_without_active_record true demoStore 99 5 (by decide) (by decide!)).1⟩

/-- C9: when member ids are unique and `/end` answers 200 with `rec`, the member
of the record is in the resulting store and its balance there is not negative,
whatever the sign of the rate, the duration or the fee. -/
theorem end_balance_nonnegative (decimalStrings : Bool) (s : Store) (machine_id : Nat)
    (now : Int) (rec : EndedRecord) (hkeys : MemberKeys s)
    (h : (endSession decimalStrings s machine_id now).2 = .ended rec) :
    (∃ m ∈ (endSession decimalStrings s machine_id now).1.members, m.id = rec.member_id) ∧
      ∀ m ∈ (endSession decimalStrings s machine_id now).1.members,
        m.id = rec.member_id → 0 ≤ m.balance := by
  rcases endSession_cases decimalStrings s machine_id now with he |
    ⟨record, rest, mem, st, mc, mrest, mb, merest, hk, hact, hmem, hm0, hst, hsel, hmsel, hfee, he⟩
  · exact absurd h (he.2 rec)
  · rw [he] at h ⊢
    simp only [EndResult.ended.injEq] at h
    subst h
    obtain ⟨hin, hid⟩ := selectMembers_head s mem mb merest hmsel
    constructor
    · refine ⟨{ mb with balance := mb.balance - sessionFee decimalStrings mc st now }, ?_, hid⟩
      simp only [endWrites, List.mem_map]
      exact ⟨mb, hin, by rw [if_pos hid]⟩
    · intro m hm hmid
      simp only [endWrites, List.mem_map] at hm
      obtain ⟨m0, hm0in, rfl⟩ := hm
      by_cases h0 : m0.id = mem
      · rw [if_pos h0]
        have : m0 = mb := List.inj_on_of_nodup_map hkeys hm0in hin (h0.trans hid.symm)
        rw [this]
        exact sub_nonneg.mpr hfee
      · rw [if_neg h0] at hmid
        exact absurd hmid h0

/-- Witness of C9: member 2 (balance 5) sits ten minutes at machine 2, whose rate
is -6; the fee is -1 and the balance after the deduction is 6. -/
theorem end_balance_nonnegative_witness :
    (endSession true (startSession demoStore 2 2 0).1 2 600000).2 =
        .ended ⟨2, 2, 2, 0, 600000, 10, -6, -1⟩ ∧
      ∀ m ∈ (endSession true (startSession demoStore 2 2 0).1 2 600000).1.members,
        m.id = 2 → 0 ≤ m.balance :=
  have h : (endSession true (startSession demoStore 2 2 0).1 2 600000).2 =
      .ended ⟨2, 2, 2, 0, 600000, 10, -6, -1⟩ := by decide!
  ⟨h, (end_balance_nonnegative true (startSession demoStore 2 2 0).1 2 600000 _
    (by decide!) h).2⟩

/-- C10: from every store with unique usage-record ids below the auto-increment
counter in which every machine with an occupant or a session start has an active
usage record with that member and that start time, and occupant and session start
are each present exactly on the machines in use, every finite sequence of start
and end requests leads to a store with the same property. -/
theorem occupant_consistency_invariant (decimalStrings : Bool) (s : Store)
    (reqs : List Request) (hkeys : RecordKeys s) (h : OccupantConsistent s) :
    OccupantConsistent (run decimalStrings s reqs) :=
  (occupant_run decimalStrings reqs s ⟨hkeys, h⟩).2

/-- Witness of C10: from `demoStore`, a start on machine 1, an end of machine 3
refused for lack of balance, an end of machine 1 and a start on machine 2. -/
theorem occupant_consistency_invariant_witness :
    (RecordKeys demoStore ∧ OccupantConsistent demoStore) ∧
      OccupantConsistent (run false demoStore
        [Request.start 1 1 0, Request.finish 3 5400000, Request.finish 1 120000,
         Request.start 2 2 130000]) :=
  ⟨by decide!, occupant_consistency_invariant false demoStore _ (by decide!) (by decide!)⟩

/-! ## Fee and end time -/

theorem feeIffEnded_step (d : Bool) (s : Store) (req : Request) (h : FeeIffEnded s) :
    FeeIffEnded (step d s req) := by
  cases req with
  | start m k now =>
    rcases startSession_cases s m k now with he | ⟨_, _, _, he⟩
    · simp only [step]; rw [he]; exact h
    · simp only [step]; rw [he]
      intro r hr
      simp only [startWrites, List.mem_append, List.mem_singleton] at hr
      rcases hr with hr | rfl
      · exact h r hr
      · simp
  | finish k now =>
    rcases endSession_cases d s k now with ⟨he, _⟩ | ⟨record, rest, mem, st, mc, mrest, mb, merest,
      _, _, _, _, _, _, _, _, he⟩
    · simp only [step]; rw [he]; exact h
    · simp only [step]; rw [he]
      intro r hr
      simp only [endWrites, List.mem_map] at hr
      obtain ⟨r0, hr0, rfl⟩ := hr
      by_cases hid : r0.id = record.id
      · rw [if_pos hid]; simp
      · rw [if_neg hid]; exact h r0 hr0

theorem feeIffEnded_run (d : Bool) (reqs : List Request) (s : Store) (h : FeeIffEnded s) :
    FeeIffEnded (run d s reqs) := by
  induction reqs generalizing s with
  | nil => exact h
  | cons req reqs ih => exact ih (step d s req) (feeIffEnded_step d s req h)

/-- C11: from every store in which each usage record has its fee set iff its end
time is set, every finite sequence of start and end requests leads to a store with
the same property. -/
theorem fee_iff_end_time_invariant (decimalStrings : Bool) (s : Store) (reqs : List Request)
    (h : FeeIffEnded s) : FeeIffEnded (run decimalStrings s reqs) :=
  feeIffEnded_run decimalStrings reqs s h

/-- Witness of C11: from `demoStore`, a start on machine 1, its end after two
minutes, and an end of machine 3 refused for lack of balance. -/
theorem fee_iff_end_time_invariant_witness :
    FeeIffEnded demoStore ∧
      FeeIffEnded (run false demoStore
        [Request.start 1 1 0, Request.finish 1 120000, Request.finish 3 5400000]) :=
  ⟨by decide!, fee_iff_end_time_invariant false demoStore _ (by decide!)⟩

/-! ## Duration -/

theorem durationMinutes_le_iff (startTime endTime n : Int) :
    durationMinutes startTime endTime ≤ n ↔ endTime - startTime ≤ n * 60000 := by
  unfold durationMinutes
  rw [Int.ceil_le, div_le_iff₀ (by norm_num)]
  constructor
  · intro h
    have h2 : ((endTime - startTime : Int) : ℚ) ≤ ((n * 60000 : Int) : ℚ) := by
      push_cast; push_cast at h; linarith
    exact_mod_cast h2
  · intro h
    have h2 : ((endTime - startTime : Int) : ℚ) ≤ ((n * 60000 : Int) : ℚ) := by
      exact_mod_cast h
    push_cast at h2 ⊢; linarith

/-- C13: the billed duration is the least integer `n` with `n * 60000` not below
the elapsed milliseconds; so an elapsed time from 1 ms to 60 s bills as one minute
and an exact multiple of 60 s bills as that many minutes. -/
theorem duration_is_ceiling (startTime endTime : Int) :
    (endTime - startTime ≤ durationMinutes startTime endTime * 60000 ∧
      ∀ n : Int, endTime - startTime ≤ n * 60000 → durationMinutes startTime endTime ≤ n) ∧
    (0 < endTime - startTime → endTime - startTime ≤ 60000 →
      durationMinutes startTime endTime = 1) ∧
    (∀ n : Int, endTime - startTime = n * 60000 → durationMinutes startTime endTime = n) ∧
    durationMinutes 0 1000 = 1 ∧ durationMinutes 0 10000 = 1 := by
  have hle := durationMinutes_le_iff startTime endTime
  refine ⟨⟨(hle _).mp le_rfl, fun n hn => (hle n).mpr hn⟩, ?_, ?_, ?_, ?_⟩
  · intro h0 h1
    apply le_antisymm
    · exact (hle 1).mpr (by omega)
    · by_contra hlt
      have h2 : durationMinutes startTime endTime ≤ 0 := by omega
      have := (hle 0).mp h2
      omega
  · intro n hn
    apply le_antisymm
    · exact (hle n).mpr (by omega)
    · have h1 := (hle (durationMinutes startTime endTime)).mp le_rfl
      omega
  · decide!
  · decide!

/-- Witness of C13: ninety minutes bill as 90, and 59.999 s bill as one minute. -/
theorem duration_is_ceiling_witness :
    durationMinutes 0 5400000 = 90 ∧ durationMinutes 0 59999 = 1 :=
  ⟨(duration_is_ceiling 0 5400000).2.2.1 90 (by decide),
   (duration_is_ceiling 0 59999).2.1 (by decide) (by decide)⟩

/-! ## Successful `/end` -/

/-- What a 200 response of `/end` says about the store before and after. -/
theorem endSession_ended (d : Bool) (s : Store) (k : Nat) (now : Int) (rec : EndedRecord)
    (h : (endSession d s k now).2 = .ended rec) :
    ∃ record rest startTime machine mrest member merest,
      k ≠ 0 ∧ activeByMachine s k = record :: rest ∧
      record.member_id = some rec.member_id ∧ rec.member_id ≠ 0 ∧
      record.start_time = some startTime ∧
      selectMachines s k = machine :: mrest ∧
      selectMembers s rec.member_id = member :: merest ∧
      rec.fee ≤ member.balance ∧
      rec = { id := record.id, member_id := rec.member_id, machine_id := k,
              start_time := startTime, end_time := now,
              duration_minutes := durationMinutes startTime now,
              hourly_rate := hourlyRateOrDefault d machine.hourly_rate,
              fee := computeFee (durationMinutes startTime now)
                (hourlyRateOrDefault d machine.hourly_rate) } ∧
      (endSession d s k now).1 = endWrites s rec.id rec.member_id k now rec.fee := by
  rcases endSession_cases d s k now with he |
    ⟨record, rest, mem, st, mc, mrest, mb, merest, hk, hact, hmem, hm0, hst, hsel, hmsel, hfee, he⟩
  · exact absurd h (he.2 rec)
  · rw [he] at h ⊢
    simp only [EndResult.ended.injEq] at h
    subst h
    exact ⟨record, rest, st, mc, mrest, mb, merest, hk, hact, hmem, hm0, hst, hsel, hmsel,
      hfee, rfl, rfl⟩

/-- C14, as stated, fails: machine 3 of `demoStore` (rate 10) closed after five
minutes returns the double `(5 / 60) * 10 = 0.8333333333333333`, which is neither
the real number `5 * 10 / 60` nor the double `5 * 10 / 60 = 0.8333333333333334`,
whether the driver returns the rate as a number or as a decimal string. -/
theorem fee_formula_counterexample :
    (endSession false demoStore 3 300000).2 =
        .ended ⟨1, 3, 3, 0, 300000, 5, 10, 3752999689475413 / 4503599627370496⟩ ∧
      (endSession true demoStore 3 300000).2 =
        .ended ⟨1, 3, 3, 0, 300000, 5, 10, 3752999689475413 / 4503599627370496⟩ ∧
      (3752999689475413 / 4503599627370496 : ℚ) ≠ ((5 : Int) : ℚ) * 10 / 60 ∧
      (3752999689475413 / 4503599627370496 : ℚ) ≠
        roundDouble (roundDouble (((5 : Int) : ℚ) * 10) / 60) := by
  decide!

/-- C14 (amended): on a 200 response of `/end` the fee of the response is the
value of `(duration_minutes / 60) * hourly_rate` in double arithmetic, for the
duration and rate of the same response; the finalised record stores that same
value, and the balance of the record's member is lowered by that same value, with
no further rounding. -/
theorem end_fee_single_value (decimalStrings : Bool) (s : Store) (machine_id : Nat) (now : Int)
    (rec : EndedRecord) (h : (endSession decimalStrings s machine_id now).2 = .ended rec) :
    rec.fee =
        roundDouble (roundDouble ((rec.duration_minutes : ℚ) / 60) * roundDouble rec.hourly_rate) ∧
      (∃ r ∈ (endSession decimalStrings s machine_id now).1.usage_records, r.id = rec.id) ∧
      (∀ r ∈ (endSession decimalStrings s machine_id now).1.usage_records,
        r.id = rec.id → r.fee = some rec.fee ∧ r.end_time = some rec.end_time) ∧
      (endSession decimalStrings s machine_id now).1.members =
        s.members.map (fun m =>
          if m.id = rec.member_id then { m with balance := m.balance - rec.fee } else m) := by
  obtain ⟨record, rest, st, mc, mrest, mb, merest, hk, hact, hmem, hm0, hst, hsel, hmsel,
    hfee, hrec, he⟩ := endSession_ended decimalStrings s machine_id now rec h
  have hin := (activeByMachine_head s machine_id record rest hact).1
  have hid : rec.id = record.id := by rw [hrec]
  have hend : rec.end_time = now := by rw [hrec]
  refine ⟨?_, ?_, ?_, ?_⟩
  · rw [hrec]; rfl
  · rw [he]
    refine ⟨{ record with end_time := some now, fee := some rec.fee }, ?_, hid.symm⟩
    simp only [endWrites, List.mem_map]
    exact ⟨record, hin, by rw [if_pos hid.symm]⟩
  · rw [he]
    intro r hr hrid
    simp only [endWrites, List.mem_map] at hr
    obtain ⟨r0, _, rfl⟩ := hr
    by_cases h0 : r0.id = rec.id
    · rw [if_pos h0, hend]; exact ⟨rfl, rfl⟩
    · rw [if_neg h0] at hrid; exact absurd hrid h0
  · rw [he]; rfl

/-- Witness of C14 (amended): machine 3 of `demoStore` closed after five minutes;
the double `(5 / 60) * 10` is in the response, on the record and off the balance
of member 3. -/
theorem end_fee_single_value_witness :
    (endSession false demoStore 3 300000).2 =
        .ended ⟨1, 3, 3, 0, 300000, 5, 10, 3752999689475413 / 4503599627370496⟩ ∧
      (∀ r ∈ (endSession false demoStore 3 300000).1.usage_records,
        r.id = 1 → r.fee = some (3752999689475413 / 4503599627370496) ∧
          r.end_time = some 300000) ∧
      (endSession false demoStore 3 300000).1.members =
        demoStore.members.map (fun m =>
          if m.id = 3 then { m with balance := m.balance - 3752999689475413 / 4503599627370496 }
          else m) :=
  have h : (endSession false demoStore 3 300000).2 =
      .ended ⟨1, 3, 3, 0, 300000, 5, 10, 3752999689475413 / 4503599627370496⟩ := by
    decide!
  have e := end_fee_single_value false demoStore 3 300000 _ h
  ⟨h, e.2.2.1, e.2.2.2⟩

/-! ## Sign of the fee -/

theorem hourlyRateOrDefault_nonneg (d : Bool) (rate : Option ℚ)
    (h : ∀ r, rate = some r → 0 ≤ r) : 0 ≤ hourlyRateOrDefault d rate := by
  unfold hourlyRateOrDefault
  cases rate with
  | none => norm_num
  | some r =>
    have hr := h r rfl
    simp only
    split
    · exact hr
    · split
      · norm_num
      · exact hr

theorem durationMinutes_nonneg_iff (startTime endTime : Int) :
    0 ≤ durationMinutes startTime endTime ↔ startTime - 60000 < endTime := by
  have h := durationMinutes_le_iff startTime endTime (-1)
  constructor
  · intro h0
    by_contra hc
    have := h.mpr (by omega)
    omega
  · intro h1
    by_contra hc
    have := h.mp (by omega)
    omega

theorem endWrites_fee_of_id (s : Store) (id mem k : Nat) (now : Int) (fee : ℚ) :
    ∀ r ∈ (endWrites s id mem k now fee).usage_records, r.id = id → r.fee = some fee := by
  intro r hr hrid
  simp only [endWrites, List.mem_map] at hr
  obtain ⟨r0, _, rfl⟩ := hr
  by_cases h0 : r0.id = id
  · rw [if_pos h0]
  · rw [if_neg h0] at hrid; exact absurd hrid h0

/-- C12, as stated, fails: with the stored rate -6 a ten-minute session persists
the fee -1, and with the rate 10 an end time two minutes before the start time
persists the negative fee `(-2 / 60) * 10`, the double -0.3333333333333333. -/
theorem fee_nonneg_counterexample :
    ((endSession true (startSession demoStore 2 2 0).1 2 600000).2 =
        .ended ⟨2, 2, 2, 0, 600000, 10, -6, -1⟩ ∧
      ⟨2, some 2, 2, some 0, some 600000, some (-1)⟩ ∈
        (endSession true (startSession demoStore 2 2 0).1 2 600000).1.usage_records) ∧
    ((endSession true demoStore 3 (-120000)).2 =
        .ended ⟨1, 3, 3, 0, -120000, -2, 10, computeFee (-2) 10⟩ ∧
      ⟨1, some 3, 3, some 0, some (-120000), some (computeFee (-2) 10)⟩ ∈
        (endSession true demoStore 3 (-120000)).1.usage_records ∧
      computeFee (-2) 10 < 0) := by
  decide!

/-- C12 (amended): when `/end` answers 200, the stored rate of the machine is
absent or not negative, and the end time is later than the start time minus one
minute, the fee of the response is not negative, and it is the fee persisted on
the finalised record. -/
theorem fee_nonneg_of_rate_and_clock (decimalStrings : Bool) (s : Store) (machine_id : Nat)
    (now : Int) (rec : EndedRecord)
    (h : (endSession decimalStrings s machine_id now).2 = .ended rec)
    (hrate : RateNonneg s machine_id)
    (hclock : rec.start_time - 60000 < now) :
    0 ≤ rec.fee ∧
      ∀ r ∈ (endSession decimalStrings s machine_id now).1.usage_records,
        r.id = rec.id → r.fee = some rec.fee := by
  obtain ⟨record, rest, st, mc, mrest, mb, merest, hk, hact, hmem, hm0, hst, hsel, hmsel,
    hfee, hrec, he⟩ := endSession_ended decimalStrings s machine_id now rec h
  constructor
  · have hst2 : rec.start_time = st := by rw [hrec]
    rw [hst2] at hclock
    obtain ⟨hin, hid⟩ := selectMachines_head s machine_id mc mrest hsel
    have hr := hourlyRateOrDefault_nonneg decimalStrings mc.hourly_rate
      (fun r hr => hrate mc hin hid r hr)
    rw [hrec]
    exact computeFee_nonneg _ _ ((durationMinutes_nonneg_iff st now).mpr hclock) hr
  · rw [he]
    exact endWrites_fee_of_id s _ _ _ _ _

/-- Witness of C12 (amended): machine 3 of `demoStore` (rate 10) closed after six
seconds: the fee `computeFee 1 10` is persisted on record 1. -/
theorem fee_nonneg_of_rate_and_clock_witness :
    (endSession false demoStore 3 6000).2 = .ended ⟨1, 3, 3, 0, 6000, 1, 10, computeFee 1 10⟩ ∧
      (0 : ℚ) ≤ computeFee 1 10 ∧
      ∀ r ∈ (endSession false demoStore 3 6000).1.usage_records,
        r.id = 1 → r.fee = some (computeFee 1 10) :=
  have h : (endSession false demoStore 3 6000).2 = .ended ⟨1, 3, 3, 0, 6000, 1, 10, computeFee 1 10⟩ := by
    decide!
  have e := fee_nonneg_of_rate_and_clock false demoStore 3 6000 _ h (by decide!) (by decide)
  ⟨h, e.1, e.2⟩

theorem members_map_sub_zero (l : List Member) (i : Nat) :
    l.map (fun m => if m.id = i then { m with balance := m.balance - 0 } else m) = l := by
  induction l with
  | nil => rfl
  | cons a l ih =>
    rw [List.map_cons, ih]
    by_cases h : a.id = i
    · rw [if_pos h, sub_zero]
    · rw [if_neg h]

/-- C19, as stated, fails: machine 3 of `demoStore` (start time 0, rate 10) closed
at time -120000 has duration -2; the negative fee `(-2 / 60) * 10`, the double
-0.3333333333333333, is persisted and the balance of member 3 rises above 1. -/
theorem negative_duration_counterexample :
    (endSession false demoStore 3 (-120000)).2 =
        .ended ⟨1, 3, 3, 0, -120000, -2, 10, computeFee (-2) 10⟩ ∧
      ⟨1, some 3, 3, some 0, some (-120000), some (computeFee (-2) 10)⟩ ∈
        (endSession false demoStore 3 (-120000)).1.usage_records ∧
      ⟨3, "丙", "13800000003", 1⟩ ∈ demoStore.members ∧
      ⟨3, "丙", "13800000003", 1 - computeFee (-2) 10⟩ ∈
        (endSession false demoStore 3 (-120000)).1.members ∧
      computeFee (-2) 10 < 0 ∧ (1 : ℚ) < 1 - computeFee (-2) 10 := by
  decide!

/-- C19 (amended): on a 200 response of `/end` the duration is not negative iff
the end time is later than the record's start time minus one minute; when the end
time is not later than the start time but less than a minute before it, the
duration is 0, the fee is 0 and no balance changes. -/
theorem end_duration_clock (decimalStrings : Bool) (s : Store) (machine_id : Nat) (now : Int)
    (rec : EndedRecord) (h : (endSession decimalStrings s machine_id now).2 = .ended rec) :
    (0 ≤ rec.duration_minutes ↔ rec.start_time - 60000 < now) ∧
      (rec.start_time - 60000 < now → now ≤ rec.start_time →
        rec.duration_minutes = 0 ∧ rec.fee = 0 ∧
        (endSession decimalStrings s machine_id now).1.members = s.members) := by
  obtain ⟨record, rest, st, mc, mrest, mb, merest, hk, hact, hmem, hm0, hst, hsel, hmsel,
    hfee, hrec, he⟩ := endSession_ended decimalStrings s machine_id now rec h
  have hst2 : rec.start_time = st := by rw [hrec]
  have hdur : rec.duration_minutes = durationMinutes st now := by rw [hrec]
  have hfee2 : rec.fee = computeFee rec.duration_minutes rec.hourly_rate := by rw [hrec]
  rw [hst2, hdur]
  refine ⟨durationMinutes_nonneg_iff st now, fun h1 h2 => ?_⟩
  have h0 : durationMinutes st now = 0 := by
    apply le_antisymm
    · exact (durationMinutes_le_iff st now 0).mpr (by omega)
    · exact (durationMinutes_nonneg_iff st now).mpr h1
  have hf : rec.fee = 0 := by
    rw [hfee2, hdur, h0]; exact computeFee_zero_duration _
  refine ⟨h0, hf, ?_⟩
  rw [he, hf]
  simp only [endWrites]
  exact members_map_sub_zero s.members rec.member_id

/-- Witness of C19 (amended): machine 3 of `demoStore` closed half a minute before
its recorded start: duration 0, fee 0, balances as before. -/
theorem end_duration_clock_witness :
    (endSession false demoStore 3 (-30000)).2 = .ended ⟨1, 3, 3, 0, -30000, 0, 10, 0⟩ ∧
      (endSession false demoStore 3 (-30000)).1.members = demoStore.members :=
  have h : (endSession false demoStore 3 (-30000)).2 = .ended ⟨1, 3, 3, 0, -30000, 0, 10, 0⟩ := by
    decide!
  ⟨h, ((end_duration_clock false demoStore 3 (-30000) _ h).2 (by decide) (by decide)).2.2⟩

/-! ## The default rate -/

/-- C16 fails on the code when the driver returns the rate as a number: machine 1
of `zeroRateStore` has the stored rate 0, a rate the rate edit accepts (200,
leaving the store as it is), and `hourly_rate || 10` replaces the number 0 by 10;
closing the machine after an hour bills 10 at the returned rate 10 and the
balance of member 1 falls from 100 to 90.  When the driver returns the rate as a
decimal string the same request bills 0 at rate 0. -/
theorem zero_rate_bills_default :
    (⟨1, "A01", statusInUse, some 1, some 0, some 0⟩ : Machine) ∈ zeroRateStore.machines ∧
      (setHourlyRate zeroRateStore 1 (.number 0)).2.status = 200 ∧
      (setHourlyRate zeroRateStore 1 (.number 0)).1 = zeroRateStore ∧
      hourlyRateOrDefault false (some 0) = 10 ∧
      (endSession false zeroRateStore 1 3600000).2 =
        .ended ⟨1, 1, 1, 0, 3600000, 60, 10, 10⟩ ∧
      ⟨1, "甲", "13800000001", 90⟩ ∈ (endSession false zeroRateStore 1 3600000).1.members ∧
      hourlyRateOrDefault true (some 0) = 0 ∧
      (endSession true zeroRateStore 1 3600000).2 =
        .ended ⟨1, 1, 1, 0, 3600000, 60, 0, 0⟩ := by
  decide!

/-- The two behaviours of `hourly_rate || 10` on a stored rate 0: on a 200 response
of `/end`, if the driver returns the rate as a decimal string the response has
rate 0 and fee 0 and no balance changes, for every duration; if it returns the
rate as a number the response has rate 10 and the fee of rate 10. -/
theorem zero_rate_billing (decimalStrings : Bool) (s : Store) (machine_id : Nat) (now : Int)
    (rec : EndedRecord) (h : (endSession decimalStrings s machine_id now).2 = .ended rec)
    (hrate : ∀ machine rest, selectMachines s machine_id = machine :: rest →
      machine.hourly_rate = some 0) :
    (decimalStrings = true →
      rec.hourly_rate = 0 ∧ rec.fee = 0 ∧
      (endSession decimalStrings s machine_id now).1.members = s.members) ∧
    (decimalStrings = false →
      rec.hourly_rate = 10 ∧ rec.fee = computeFee rec.duration_minutes 10) := by
  obtain ⟨record, rest, st, mc, mrest, mb, merest, hk, hact, hmem, hm0, hst, hsel, hmsel,
    hfee, hrec, he⟩ := endSession_ended decimalStrings s machine_id now rec h
  have hr0 := hrate mc mrest hsel
  have hfee2 : rec.fee = computeFee rec.duration_minutes rec.hourly_rate := by rw [hrec]
  have hrt : rec.hourly_rate = hourlyRateOrDefault decimalStrings mc.hourly_rate := by rw [hrec]
  constructor
  · intro hd
    have hr : rec.hourly_rate = 0 := by rw [hrt, hr0, hd]; simp [hourlyRateOrDefault]
    have hf : rec.fee = 0 := by rw [hfee2, hr]; exact computeFee_zero_rate _
    refine ⟨hr, hf, ?_⟩
    rw [he, hf]
    simp only [endWrites]
    exact members_map_sub_zero s.members rec.member_id
  · intro hd
    have hr : rec.hourly_rate = 10 := by rw [hrt, hr0, hd]; simp [hourlyRateOrDefault]
    refine ⟨hr, ?_⟩
    rw [hfee2, hr]

/-- Example of the decimal-string case: machine 1 of `zeroRateStore` closed after an
hour with the rate returned as a decimal string: fee 0, balances as before. -/
theorem zero_rate_billing_example :
    (endSession true zeroRateStore 1 3600000).2 = .ended ⟨1, 1, 1, 0, 3600000, 60, 0, 0⟩ ∧
      (endSession true zeroRateStore 1 3600000).1.members = zeroRateStore.members :=
  have h : (endSession true zeroRateStore 1 3600000).2 =
      .ended ⟨1, 1, 1, 0, 3600000, 60, 0, 0⟩ := by decide!
  ⟨h, ((zero_rate_billing true zeroRateStore 1 3600000 _ h
    (by
      intro machine rest hsel
      have h1 : selectMachines zeroRateStore 1 =
          [⟨1, "A01", statusInUse, some 1, some 0, some 0⟩] := by decide!
      rw [h1] at hsel
      injection hsel with e _
      rw [← e])).1 rfl).2.2⟩

/-! ## Several active records on one machine -/

/-- C18, as stated, fails: machine 1 of `sharedStore` has two active records and
`/end` answers 200, finalising the first of them. -/
theorem several_active_counterexample :
    (activeByMachine sharedStore 1).length = 2 ∧
      (endSession false sharedStore 1 60000).2 = .ended ⟨1, 1, 1, 0, 60000, 1, 10, computeFee 1 10⟩ ∧
      ⟨1, some 1, 1, some 0, some 60000, some (computeFee 1 10)⟩ ∈
        (endSession false sharedStore 1 60000).1.usage_records ∧
      (endSession false sharedStore 1 60000).1 ≠ sharedStore := by
  decide!

/-- C18 (amended): when `/end` finds more than one active usage record for the
machine it goes on with the first one as if it were the only one: if that record
has a member and a start time, the machine row and the member row exist and the
balance covers the fee, the answer is 200 for that record, and (record ids being
unique) the other active records of the machine are the active records
afterwards. -/
theorem end_takes_first_active (decimalStrings : Bool) (s : Store) (machine_id : Nat)
    (now : Int) (record other : UsageRecord) (rest : List UsageRecord) (member_id : Nat)
    (startTime : Int) (machine : Machine) (mrest : List Machine) (member : Member)
    (merest : List Member)
    (hkeys : RecordKeys s)
    (hk : machine_id ≠ 0) (hact : activeByMachine s machine_id = record :: other :: rest)
    (hmem : record.member_id = some member_id) (hm0 : member_id ≠ 0)
    (hst : record.start_time = some startTime)
    (hmach : selectMachines s machine_id = machine :: mrest)
    (hsel : selectMembers s member_id = member :: merest)
    (hbal : computeFee (durationMinutes startTime now)
        (hourlyRateOrDefault decimalStrings machine.hourly_rate) ≤ member.balance) :
    (endSession decimalStrings s machine_id now).2 =
        .ended { id := record.id, member_id := member_id, machine_id := machine_id,
                 start_time := startTime, end_time := now,
                 duration_minutes := durationMinutes startTime now,
                 hourly_rate := hourlyRateOrDefault decimalStrings machine.hourly_rate,
                 fee := computeFee (durationMinutes startTime now)
                   (hourlyRateOrDefault decimalStrings machine.hourly_rate) } ∧
      activeByMachine (endSession decimalStrings s machine_id now).1 machine_id =
        other :: rest := by
  have heq := endSession_eq decimalStrings s machine_id now record (other :: rest) member_id
    startTime machine mrest member merest hk hact hmem hm0 hst hmach hsel
  unfold sessionFee at heq
  rw [heq, if_neg (not_lt.mpr hbal)]
  refine ⟨rfl, ?_⟩
  simp only
  rw [activeByMachine_endWrites, hact]
  have hsub : (activeByMachine s machine_id).map (fun r => r.id) |>.Nodup := by
    unfold activeByMachine
    exact hkeys.1.sublist (List.Sublist.map _ (List.filter_sublist _))
  rw [hact, List.map_cons, List.nodup_cons] at hsub
  have hne : ∀ r ∈ other :: rest, r.id ≠ record.id := by
    intro r hr e
    exact hsub.1 (e ▸ List.mem_map_of_mem (fun r => r.id) hr)
  rw [List.filter_cons]
  simp only [ne_eq, not_true_eq_false, decide_False, Bool.false_eq_true, if_false]
  rw [List.filter_eq_self]
  intro r hr
  simpa using hne r hr

/-- Witness of C18 (amended): machine 1 of `sharedStore` closed after a minute;
record 1 is finalised and record 2 is the machine's active record afterwards. -/
theorem end_takes_first_active_witness :
    (activeByMachine sharedStore 1).length = 2 ∧
      activeByMachine (endSession false sharedStore 1 60000).1 1 =
        [⟨2, some 2, 1, some 0, none, none⟩] :=
  ⟨by decide!,
   (end_takes_first_active false sharedStore 1 60000
    ⟨1, some 1, 1, some 0, none, none⟩ ⟨2, some 2, 1, some 0, none, none⟩ [] 1 0
    ⟨1, "A01", statusFree, none, none, some 10⟩ []
    ⟨1, "甲", "13800000001", 100⟩ []
    (by decide!) (by decide) (by decide!) rfl (by decide) rfl (by decide!) (by decide!)
    (by decide!)).2⟩

/-! ## The administrative status edit -/

/-- C20, as stated, fails: after the edit `{member_id: null}` machine 3 of
`demoStore` is still in use and still has its active record, yet the edit
`{status: '空闲'}` is accepted and sets the machine free. -/
theorem edit_guard_counterexample :
    (updateMachine demoStore 3 ⟨none, some none, none⟩ 5).2 = .updated ∧
      (∀ m ∈ (updateMachine demoStore 3 ⟨none, some none, none⟩ 5).1.machines,
        m.id = 3 → m.status = statusInUse) ∧
      activeByMachine (updateMachine demoStore 3 ⟨none, some none, none⟩ 5).1 3 =
        [⟨1, some 3, 3, some 0, none, none⟩] ∧
      (updateMachine (updateMachine demoStore 3 ⟨none, some none, none⟩ 5).1 3
        ⟨some statusFree, none, none⟩ 6).2 = .updated ∧
      (∀ m ∈ (updateMachine (updateMachine demoStore 3 ⟨none, some none, none⟩ 5).1 3
          ⟨some statusFree, none, none⟩ 6).1.machines,
        m.id = 3 → m.status = statusFree) := by
  decide!

/-- C20 (amended): for a machine whose row is in use with a recorded occupant
(member id neither `NULL` nor 0) and which has an active usage record, an edit
that requests a non-empty status other than in-use is rejected with 400, the
session-must-end-first message, the machine id and the current status, and the
store is unchanged. -/
theorem edit_guard_rejects (s : Store) (id : Nat) (body : MachineEdit) (now : Int)
    (machine : Machine) (mrest : List Machine) (occupant : Nat) (status : String)
    (hmach : selectMachines s id = machine :: mrest)
    (hstatus : machine.status = statusInUse)
    (hocc : machine.member_id = some occupant) (hocc0 : occupant ≠ 0)
    (hreq : body.status = some status) (hne : status ≠ "") (hdiff : status ≠ statusInUse)
    (hact : activeByMachine s id ≠ []) :
    updateMachine s id body now = (s, .sessionMustEnd id statusInUse) ∧
      (updateMachine s id body now).2.status = 400 ∧
      (updateMachine s id body now).2.error =
        some "该机位有人正在使用，请先让用户下机后再修改状态" := by
  have hg : editGuard machine body := by
    refine ⟨hstatus, ⟨occupant, by simp [hocc], hocc0⟩, ⟨status, by simp [hreq], hne⟩, ?_⟩
    rw [hreq]
    intro e
    injection e with e
    exact hdiff e
  have he : updateMachine s id body now = (s, .sessionMustEnd id statusInUse) := by
    unfold updateMachine
    simp only [hmach]
    rw [if_pos hg]
    cases hrec : activeByMachine s id with
    | nil => exact absurd hrec hact
    | cons r l => simp [hstatus]
  rw [he]
  exact ⟨rfl, rfl, rfl⟩

/-- Witness of C20 (amended): machine 3 of `demoStore` is in use by member 3 with
an active record; the edit `{status: '空闲'}` is rejected. -/
theorem edit_guard_rejects_witness :
    updateMachine demoStore 3 ⟨some statusFree, none, none⟩ 6 =
      (demoStore, .sessionMustEnd 3 statusInUse) :=
  (edit_guard_rejects demoStore 3 ⟨some statusFree, none, none⟩ 6
    ⟨3, "A03", statusInUse, some 3, some 0, some 10⟩ [] 3 statusFree
    (by decide!) rfl rfl (by decide) rfl (by decide) (by decide) (by decide!)).1

/-! ## The rate in effect at the end -/

theorem filter_machine_id_map (l : List Machine) (f : Machine → Machine)
    (hf : ∀ m, (f m).id = m.id) (j : Nat) :
    (l.map f).filter (fun m => m.id = j) = (l.filter (fun m => m.id = j)).map f := by
  induction l with
  | nil => rfl
  | cons a l ih =>
    rw [List.map_cons, List.filter_cons, List.filter_cons, ih, hf a]
    by_cases hj : a.id = j
    · simp only [hj, decide_True, if_true, List.map_cons]
    · simp only [hj, decide_False, Bool.false_eq_true, if_false]

theorem selectMachines_rateWrites (s : Store) (id : Nat) (rate : ℚ) (j : Nat) :
    selectMachines (rateWrites s id rate) j =
      (selectMachines s j).map (fun m =>
        if m.id = id then { m with hourly_rate := some rate } else m) := by
  unfold selectMachines rateWrites
  exact filter_machine_id_map s.machines _
    (fun m => by by_cases h : m.id = id <;> simp [h]) j

theorem setHourlyRate_of_valid (s : Store) (id : Nat) (rate : ℚ) (h : 0 ≤ rate) :
    (setHourlyRate s id (.number rate)).1 = rateWrites s id rate := by
  unfold setHourlyRate
  simp only [not_lt.mpr h, if_false]
  split <;> rfl

/-- C17, as stated, fails for the value of the fee: the rate of machine 1 of
`boundarySessionStore`, in use since time 0, is changed from 60 to 10 by the rate
edit; `/end` five minutes after the start bills at the new rate 10, and the fee is
the double `(5 / 60) * 10 = 0.8333333333333333`, which is neither the real number
`5 * 10 / 60` nor the double `5 * 10 / 60 = 0.8333333333333334`, whether the
driver returns the rate as a number or as a decimal string. -/
theorem rate_change_fee_counterexample :
    (⟨1, "A01", statusInUse, some 1, some 0, some 60⟩ : Machine) ∈
        boundarySessionStore.machines ∧
      (setHourlyRate boundarySessionStore 1 (.number 10)).2.status = 200 ∧
      (endSession false (setHourlyRate boundarySessionStore 1 (.number 10)).1 1 300000).2 =
        .ended ⟨1, 1, 1, 0, 300000, 5, 10, 3752999689475413 / 4503599627370496⟩ ∧
      (endSession true (setHourlyRate boundarySessionStore 1 (.number 10)).1 1 300000).2 =
        .ended ⟨1, 1, 1, 0, 300000, 5, 10, 3752999689475413 / 4503599627370496⟩ ∧
      (3752999689475413 / 4503599627370496 : ℚ) ≠ ((5 : Int) : ℚ) * 10 / 60 ∧
      (3752999689475413 / 4503599627370496 : ℚ) ≠
        roundDouble (roundDouble (((5 : Int) : ℚ) * 10) / 60) := by
  decide!

/-- C17 (amended): the fee of `/end` is a function of the record's start time, the
end time and the rate stored when `/end` runs: two successful ends with the same
three values return the same fee, whatever the stores went through before; and
when the rate of a machine with an open session is changed from `r1` to `r2`,
both positive, by the rate edit, the following `/end` (the balance covering the
fee) answers 200 with rate `r2` and the fee the handler computes from `r2`,
`(duration_minutes / 60) * r2` in double arithmetic. -/
theorem end_bills_current_rate (decimalStrings : Bool) :
    (∀ (s1 s2 : Store) (k1 k2 : Nat) (now : Int) (rec1 rec2 : EndedRecord),
      (endSession decimalStrings s1 k1 now).2 = .ended rec1 →
      (endSession decimalStrings s2 k2 now).2 = .ended rec2 →
      rec1.start_time = rec2.start_time →
      (selectMachines s1 k1).head?.map (fun m => m.hourly_rate) =
        (selectMachines s2 k2).head?.map (fun m => m.hourly_rate) →
      rec1.fee = rec2.fee) ∧
    (∀ (s : Store) (k : Nat) (r1 r2 : ℚ) (now : Int) (record : UsageRecord)
      (rest : List UsageRecord) (member_id : Nat) (startTime : Int) (machine : Machine)
      (mrest : List Machine) (member : Member) (merest : List Member),
      0 < r1 → 0 < r2 → k ≠ 0 →
      activeByMachine s k = record :: rest →
      record.member_id = some member_id → member_id ≠ 0 →
      record.start_time = some startTime →
      selectMachines s k = machine :: mrest → machine.hourly_rate = some r1 →
      selectMembers s member_id = member :: merest →
      computeFee (durationMinutes startTime now) r2 ≤ member.balance →
      (endSession decimalStrings (setHourlyRate s k (.number r2)).1 k now).2 =
        .ended { id := record.id, member_id := member_id, machine_id := k,
                 start_time := startTime, end_time := now,
                 duration_minutes := durationMinutes startTime now,
                 hourly_rate := r2,
                 fee := computeFee (durationMinutes startTime now) r2 }) := by
  constructor
  · intro s1 s2 k1 k2 now rec1 rec2 h1 h2 hst hrate
    obtain ⟨_, _, st1, mc1, mrest1, _, _, _, _, _, _, _, hsel1, _, _, hrec1, _⟩ :=
      endSession_ended decimalStrings s1 k1 now rec1 h1
    obtain ⟨_, _, st2, mc2, mrest2, _, _, _, _, _, _, _, hsel2, _, _, hrec2, _⟩ :=
      endSession_ended decimalStrings s2 k2 now rec2 h2
    have e1 : rec1.start_time = st1 := by rw [hrec1]
    have e2 : rec2.start_time = st2 := by rw [hrec2]
    have hst' : st1 = st2 := by rw [← e1, ← e2]; exact hst
    rw [hsel1, hsel2] at hrate
    simp only [List.head?_cons, Option.map_some', Option.some.injEq] at hrate
    rw [hrec1, hrec2]
    simp only [hst', hrate]
  · intro s k r1 r2 now record rest member_id startTime machine mrest member merest
      _ hr2 hk hact hmem hm0 hst hmach _ hsel hbal
    rw [setHourlyRate_of_valid s k r2 (le_of_lt hr2)]
    have hmid := (selectMachines_head s k machine mrest hmach).2
    have hmach2 : selectMachines (rateWrites s k r2) k =
        { machine with hourly_rate := some r2 } ::
          mrest.map (fun m => if m.id = k then { m with hourly_rate := some r2 } else m) := by
      rw [selectMachines_rateWrites, hmach, List.map_cons, if_pos hmid]
    have hrate : hourlyRateOrDefault decimalStrings (some r2) = r2 := by
      unfold hourlyRateOrDefault
      simp only
      split
      · rfl
      · rw [if_neg (ne_of_gt hr2)]
    have heq := endSession_eq decimalStrings (rateWrites s k r2) k now record rest member_id
      startTime _ _ member merest hk hact hmem hm0 hst hmach2 hsel
    simp only [sessionFee, hrate] at heq
    rw [heq, if_neg (not_lt.mpr hbal)]

/-- Witness of C17 (amended): the rate of machine 3 of `demoStore` (in use since time 0, rate
10) is set to 30; its end after one minute bills `(1 / 60) * 30 = 0.5`. -/
theorem end_bills_current_rate_witness :
    (setHourlyRate demoStore 3 (.number 30)).2.status = 200 ∧
      (endSession false (setHourlyRate demoStore 3 (.number 30)).1 3 60000).2 =
        .ended ⟨1, 3, 3, 0, 60000, durationMinutes 0 60000, 30,
          computeFee (durationMinutes 0 60000) 30⟩ ∧
      computeFee (durationMinutes 0 60000) 30 = 1 / 2 :=
  ⟨by decide!,
   (end_bills_current_rate false).2 demoStore 3 10 30 60000
    ⟨1, some 3, 3, some 0, none, none⟩ [] 3 0
    ⟨3, "A03", statusInUse, some 3, some 0, some 10⟩ []
    ⟨3, "丙", "13800000003", 1⟩ []
    (by norm_num) (by norm_num) (by decide) (by decide!) rfl (by decide) rfl (by decide!) rfl
    (by decide!) (by decide!),
   by decide!⟩

/-! ## Round trip -/

theorem hourlyRateOrDefault_of_ne_zero (d : Bool) (r : ℚ) (h : r ≠ 0) :
    hourlyRateOrDefault d (some r) = r := by
  cases d <;> simp [hourlyRateOrDefault, h]

theorem startSession_created (s : Store) (member_id machine_id : Nat) (now : Int)
    (h : (startSession s member_id machine_id now).2.status = 201) :
    member_id ≠ 0 ∧ machine_id ≠ 0 ∧ StartPreconditions s member_id machine_id := by
  by_cases hz : member_id = 0 ∨ machine_id = 0
  · simp [startSession, hz, StartResult.status] at h
  · by_cases hpre : StartPreconditions s member_id machine_id
    · exact ⟨fun e => hz (Or.inl e), fun e => hz (Or.inr e), hpre⟩
    · exact absurd h (startSession_of_not_preconditions s member_id machine_id now hpre).2

theorem selectMachines_startWrites (s : Store) (m k : Nat) (now : Int) (j : Nat) :
    selectMachines (startWrites s m k now) j =
      (selectMachines s j).map (fun mc =>
        if mc.id = k then
          { mc with status := statusInUse, member_id := some m, start_time := some now }
        else mc) := by
  unfold selectMachines startWrites
  exact filter_machine_id_map s.machines _
    (fun mc => by by_cases h : mc.id = k <;> simp [h]) j

/-- C15, as stated, fails for the fee `ceil(t in minutes) * rate / 60`: in
`boundaryStore`, a consistent store, `start(1, 1)` at time 0 answers 201; 31
minutes later the value `31 * 60 / 60 = 31` does not exceed the balance 31, but
the handler computes the double `(31 / 60) * 60 = 31.000000000000004`, which does,
and `end(1)` is refused with the insufficient-balance response, the session left
open. -/
theorem round_trip_counterexample :
    MachineExclusive boundaryStore ∧ NoSharedMachine boundaryStore ∧
      (startSession boundaryStore 1 1 0).2.status = 201 ∧
      (startSession boundaryStore 1 1 0).1 = boundarySessionStore ∧
      durationMinutes 0 1860000 = 31 ∧
      ((31 : Int) : ℚ) * 60 / 60 ≤ 31 ∧
      computeFee 31 60 = 31 + 1 / 2 ^ 48 ∧
      endSession false (startSession boundaryStore 1 1 0).1 1 1860000 =
        (boundarySessionStore, .insufficientBalance) ∧
      endSession true (startSession boundaryStore 1 1 0).1 1 1860000 =
        (boundarySessionStore, .insufficientBalance) := by
  decide!

/-- C15 (amended): in a store where no machine has more than one active record
and the machines in use are those with exactly one, if `start(m, k)` at time `t0`
answers 201 then `end(k)` at time `t1`, the balance of `m` covering the fee the
handler computes, answers 200 for the record just created; afterwards machine `k`
is free with no occupant and no session start, member `m` has no active record,
and the balance of `m` is lowered by exactly that fee, the double
`(ceil((t1 - t0) / 60 s) / 60) * rate`, `rate` being the rate the response
reports (the stored rate, unless that is absent or a numeric zero).  With the
stored rate 10 and 90 minutes elapsed the duration is 90 and the fee 15. -/
theorem start_end_round_trip (decimalStrings : Bool) (s : Store) (m k : Nat) (t0 t1 : Int)
    (machine : Machine) (mrest : List Machine) (member : Member) (merest : List Member)
    (hex : MachineExclusive s) (hno : NoSharedMachine s)
    (hstart : (startSession s m k t0).2.status = 201)
    (hmach : selectMachines s k = machine :: mrest)
    (hsel : selectMembers s m = member :: merest)
    (hbal : computeFee (durationMinutes t0 t1)
      (hourlyRateOrDefault decimalStrings machine.hourly_rate) ≤ member.balance) :
    (endSession decimalStrings (startSession s m k t0).1 k t1).2 =
        .ended { id := s.next_record_id, member_id := m, machine_id := k,
                 start_time := t0, end_time := t1,
                 duration_minutes := durationMinutes t0 t1,
                 hourly_rate := hourlyRateOrDefault decimalStrings machine.hourly_rate,
                 fee := computeFee (durationMinutes t0 t1)
                   (hourlyRateOrDefault decimalStrings machine.hourly_rate) } ∧
      (∀ r, machine.hourly_rate = some r → r ≠ 0 →
        hourlyRateOrDefault decimalStrings machine.hourly_rate = r) ∧
      (∃ mc ∈ (endSession decimalStrings (startSession s m k t0).1 k t1).1.machines,
        mc.id = k) ∧
      (∀ mc ∈ (endSession decimalStrings (startSession s m k t0).1 k t1).1.machines,
        mc.id = k → mc.status = statusFree ∧ mc.member_id = none ∧ mc.start_time = none) ∧
      activeByMember (endSession decimalStrings (startSession s m k t0).1 k t1).1 m = [] ∧
      (endSession decimalStrings (startSession s m k t0).1 k t1).1.members =
        s.members.map (fun x =>
          if x.id = m then
            { x with balance := x.balance -
                computeFee (durationMinutes t0 t1) (hourlyRateOrDefault decimalStrings machine.hourly_rate) }
          else x) ∧
      (machine.hourly_rate = some 10 → t1 - t0 = 5400000 →
        durationMinutes t0 t1 = 90 ∧
        computeFee (durationMinutes t0 t1)
          (hourlyRateOrDefault decimalStrings machine.hourly_rate) = 15) := by
  obtain ⟨hm0, hk0, hpre⟩ := startSession_created s m k t0 hstart
  have hpre' := (startPreconditions_iff s m k).mp hpre
  obtain ⟨hin, hid⟩ := selectMachines_head s k machine mrest hmach
  have hfree : machine.status = statusFree := by
    obtain ⟨_, _, mc, rest, hsel2, hf⟩ := hpre'
    rw [hmach] at hsel2
    injection hsel2 with e _
    rw [e]; exact hf
  have hnone : activeByMachine s k = [] := by
    have h1 := hex machine hin
    have h2 := hno machine hin
    rw [hid] at h1 h2
    have h3 : ¬ (activeByMachine s k).length = 1 := fun e =>
      statusFree_ne_statusInUse (hfree ▸ h1.mpr e)
    exact List.length_eq_zero.mp (by omega)
  rw [startSession_of_preconditions s m k t0 hm0 hk0 hpre]
  simp only
  have hact : activeByMachine (startWrites s m k t0) k =
      [{ id := s.next_record_id, member_id := some m, machine_id := k,
         start_time := some t0, end_time := none, fee := none }] := by
    rw [activeByMachine_startWrites, hnone]; simp
  have hmach2 : selectMachines (startWrites s m k t0) k =
      { machine with status := statusInUse, member_id := some m, start_time := some t0 } ::
        mrest.map (fun mc =>
          if mc.id = k then
            { mc with status := statusInUse, member_id := some m, start_time := some t0 }
          else mc) := by
    rw [selectMachines_startWrites, hmach, List.map_cons, if_pos hid]
  have hsel2 : selectMembers (startWrites s m k t0) m = member :: merest := hsel
  have heq := endSession_eq decimalStrings (startWrites s m k t0) k t1 _ [] m t0 _ _
    member merest hk0 hact rfl hm0 rfl hmach2 hsel2
  simp only [sessionFee] at heq
  rw [heq, if_neg (not_lt.mpr hbal)]
  dsimp only
  refine ⟨?_, ?_, ?_, ?_, ?_, ?_, ?_⟩
  · rfl
  · intro r hr hr0
    rw [hr]
    exact hourlyRateOrDefault_of_ne_zero decimalStrings r hr0
  · refine ⟨{ machine with status := statusFree, member_id := none, start_time := none },
      ?_, hid⟩
    simp only [endWrites, startWrites, List.mem_map, List.map_map]
    refine ⟨machine, hin, ?_⟩
    simp [hid]
  · intro mc hmc hmcid
    simp only [endWrites, List.mem_map] at hmc
    obtain ⟨m0, _, rfl⟩ := hmc
    by_cases h0 : m0.id = k
    · rw [if_pos h0]; exact ⟨rfl, rfl, rfl⟩
    · rw [if_neg h0] at hmcid; exact absurd hmcid h0
  · rw [activeByMember_endWrites, activeByMember_startWrites, hpre'.2.1]
    simp
  · rfl
  · intro hr ht
    have hd : durationMinutes t0 t1 = 90 := by
      apply le_antisymm
      · exact (durationMinutes_le_iff t0 t1 90).mpr (by omega)
      · have h1 := (durationMinutes_le_iff t0 t1 (durationMinutes t0 t1)).mp le_rfl
        omega
    refine ⟨hd, ?_⟩
    rw [hd, hr, hourlyRateOrDefault_of_ne_zero decimalStrings 10 (by norm_num)]
    decide!

/-- Witness of C15: member 1 of `demoStore` sits 90 minutes at machine 1 (rate 10):
duration 90, fee 15, balance 100 - 15. -/
theorem start_end_round_trip_witness :
    (startSession demoStore 1 1 1000).2.status = 201 ∧
      (endSession false (startSession demoStore 1 1 1000).1 1 5401000).1.members =
        demoStore.members.map (fun x =>
          if x.id = 1 then
            { x with balance := x.balance -
                computeFee (durationMinutes 1000 5401000) (hourlyRateOrDefault false (some 10)) }
          else x) ∧
      durationMinutes 1000 5401000 = 90 ∧
      computeFee (durationMinutes 1000 5401000) (hourlyRateOrDefault false (some 10)) = 15 :=
  have hstart : (startSession demoStore 1 1 1000).2.status = 201 := by decide!
  have e := start_end_round_trip false demoStore 1 1 1000 5401000
    ⟨1, "A01", statusFree, none, none, some 10⟩
    [] ⟨1, "甲", "13800000001", 100⟩ []
    (by decide!) (by decide!) hstart (by decide!) (by decide!) (by decide!)
  ⟨hstart, e.2.2.2.2.2.1, e.2.2.2.2.2.2 rfl (by decide)⟩

/-! ## Row-by-row comparison of two tables -/

theorem forall₂_map_of_forall {α : Type} (R : α → α → Prop) (f : α → α) (l : List α)
    (h : ∀ x ∈ l, R x (f x)) : List.Forall₂ R l (l.map f) := by
  induction l with
  | nil => exact List.Forall₂.nil
  | cons a l ih =>
    rw [List.map_cons]
    exact List.Forall₂.cons (h a (List.mem_cons_self a l))
      (ih (fun x hx => h x (List.mem_cons_of_mem a hx)))

/-! ## The dedicated rate edit -/

theorem rateWrites_of_no_machine (s : Store) (id : Nat) (rate : ℚ)
    (h : selectMachines s id = []) : rateWrites s id rate = s := by
  have hno : ∀ m ∈ s.machines, ¬ m.id = id := by
    intro m hm hid
    have : m ∈ selectMachines s id := by
      unfold selectMachines
      rw [List.mem_filter]
      exact ⟨hm, by simpa using hid⟩
    rw [h] at this
    exact absurd this (List.not_mem_nil m)
  have hmap : s.machines.map (fun m =>
      if m.id = id then { m with hourly_rate := some rate } else m) = s.machines := by
    conv_rhs => rw [← List.map_id s.machines]
    apply List.map_congr_left
    intro m hm
    rw [if_neg (hno m hm)]; rfl
  unfold rateWrites
  rw [hmap]

/-- C23: the rate edit with a rate that parses to a number `>= 0` answers 404
exactly when no machine has the id, and then changes nothing; for an existing
machine it answers 200 whatever the machine's status or sessions, every row of
the machine gets that rate and keeps its number, status, occupant and session
start, the other machines are untouched, and the usage records and the members
are unchanged. -/
theorem rate_edit_effects (s : Store) (id : Nat) (rate : ℚ) (h : 0 ≤ rate) :
    ((setHourlyRate s id (.number rate)).2 = .machineNotFound ↔ selectMachines s id = []) ∧
      (selectMachines s id = [] → (setHourlyRate s id (.number rate)).1 = s) ∧
      (selectMachines s id ≠ [] →
        (setHourlyRate s id (.number rate)).2.status = 200 ∧
        ∃ m ∈ (setHourlyRate s id (.number rate)).1.machines,
          m.id = id ∧ m.hourly_rate = some rate) ∧
      List.Forall₂
        (fun m m' => m'.id = m.id ∧ m'.machine_number = m.machine_number ∧
          m'.status = m.status ∧ m'.member_id = m.member_id ∧ m'.start_time = m.start_time ∧
          (m.id = id → m'.hourly_rate = some rate) ∧ (m.id ≠ id → m' = m))
        s.machines (setHourlyRate s id (.number rate)).1.machines ∧
      (setHourlyRate s id (.number rate)).1.usage_records = s.usage_records ∧
      (setHourlyRate s id (.number rate)).1.members = s.members ∧
      (setHourlyRate s id (.number rate)).1.next_record_id = s.next_record_id := by
  have hst := setHourlyRate_of_valid s id rate h
  refine ⟨?_, ?_, ?_, ?_, ?_, ?_, ?_⟩
  · unfold setHourlyRate
    simp only [not_lt.mpr h, if_false]
    constructor
    · intro e
      by_cases hl : (selectMachines s id).length = 0
      · exact List.length_eq_zero.mp hl
      · rw [if_neg hl] at e; simp at e
    · intro e
      rw [e]; simp
  · intro e
    rw [hst]; exact rateWrites_of_no_machine s id rate e
  · intro hne
    constructor
    · unfold setHourlyRate
      simp only [not_lt.mpr h, if_false]
      have hl : ¬ (selectMachines s id).length = 0 := fun e => hne (List.length_eq_zero.mp e)
      rw [if_neg hl]; rfl
    · rw [hst]
      cases hsel : selectMachines s id with
      | nil => exact absurd hsel hne
      | cons machine rest =>
        obtain ⟨hin, hid⟩ := selectMachines_head s id machine rest hsel
        refine ⟨{ machine with hourly_rate := some rate }, ?_, hid, rfl⟩
        simp only [rateWrites, List.mem_map]
        exact ⟨machine, hin, by rw [if_pos hid]⟩
  · rw [hst]
    simp only [rateWrites]
    apply forall₂_map_of_forall
    intro m _
    by_cases hid : m.id = id
    · rw [if_pos hid]
      exact ⟨rfl, rfl, rfl, rfl, rfl, fun _ => rfl, fun e => absurd hid e⟩
    · rw [if_neg hid]
      exact ⟨rfl, rfl, rfl, rfl, rfl, fun e => absurd e hid, fun _ => rfl⟩
  · rw [hst]; rfl
  · rw [hst]; rfl
  · rw [hst]; rfl

/-- Witness of C23: the rate of machine 3 of `demoStore`, in use with an open
session, is set to 0; and no machine has id 9. -/
theorem rate_edit_effects_witness :
    ((setHourlyRate demoStore 3 (.number 0)).2.status = 200 ∧
      ∃ m ∈ (setHourlyRate demoStore 3 (.number 0)).1.machines,
        m.id = 3 ∧ m.hourly_rate = some 0) ∧
      (setHourlyRate demoStore 9 (.number 0)).2 = .machineNotFound :=
  ⟨(rate_edit_effects demoStore 3 0 (le_refl 0)).2.2.1 (by decide!),
   (rate_edit_effects demoStore 9 0 (le_refl 0)).1.mpr (by decide!)⟩

/-! ## Finalised records -/

theorem finalized_mem_step (d : Bool) (s : Store) (req : Request) (r : UsageRecord)
    (hkeys : RecordKeys s) (hr : r ∈ s.usage_records) (hend : r.end_time ≠ none) :
    r ∈ (step d s req).usage_records := by
  cases req with
  | start m k now =>
    rcases startSession_cases s m k now with he | ⟨_, _, _, he⟩
    · simp only [step]; rw [he]; exact hr
    · simp only [step]; rw [he]
      simp only [startWrites]
      exact List.mem_append_left _ hr
  | finish k now =>
    rcases endSession_cases d s k now with ⟨he, _⟩ | ⟨record, rest, mem, st, mc, mrest, mb, merest,
      _, hact, _, _, _, _, _, _, he⟩
    · simp only [step]; rw [he]; exact hr
    · simp only [step]; rw [he]
      obtain ⟨hin, _, hnone⟩ := activeByMachine_head s k record rest hact
      have hne : ¬ r.id = record.id := by
        intro e
        have := hkeys.eq_of_id_eq hr hin e
        rw [this] at hend
        exact hend hnone
      simp only [endWrites, List.mem_map]
      exact ⟨r, hr, by rw [if_neg hne]⟩

theorem finalized_mem_run (d : Bool) (reqs : List Request) (s : Store) (r : UsageRecord)
    (hkeys : RecordKeys s) (hr : r ∈ s.usage_records) (hend : r.end_time ≠ none) :
    r ∈ (run d s reqs).usage_records := by
  induction reqs generalizing s with
  | nil => exact hr
  | cons req reqs ih =>
    exact ih (step d s req) (recordKeys_step d s req hkeys)
      (finalized_mem_step d s req r hkeys hr hend)

theorem recordKeys_run (d : Bool) (reqs : List Request) (s : Store) (hkeys : RecordKeys s) :
    RecordKeys (run d s reqs) := by
  induction reqs generalizing s with
  | nil => exact hkeys
  | cons req reqs ih => exact ih (step d s req) (recordKeys_step d s req hkeys)

/-- C26: with unique usage-record ids, a record that is finalised (its end time is
set) is found unchanged after every finite sequence of start and end requests: it
is still in the table, every record with its id is that record (same member,
machine, start time, end time and fee), and no later `/end` answers 200 for its
id. -/
theorem finalized_record_immutable (decimalStrings : Bool) (s : Store) (reqs : List Request)
    (r : UsageRecord) (hkeys : RecordKeys s) (hr : r ∈ s.usage_records)
    (hend : r.end_time ≠ none) :
    r ∈ (run decimalStrings s reqs).usage_records ∧
      (∀ r' ∈ (run decimalStrings s reqs).usage_records, r'.id = r.id → r' = r) ∧
      (∀ (machine_id : Nat) (now : Int) (rec : EndedRecord),
        (endSession decimalStrings (run decimalStrings s reqs) machine_id now).2 = .ended rec →
        rec.id ≠ r.id) := by
  have hmem := finalized_mem_run decimalStrings reqs s r hkeys hr hend
  have hk := recordKeys_run decimalStrings reqs s hkeys
  refine ⟨hmem, fun r' hr' hid => hk.eq_of_id_eq hr' hmem hid, ?_⟩
  intro machine_id now rec h e
  obtain ⟨record, rest, st, mc, mrest, mb, merest, _, hact, _, _, _, _, _, _, hrec, _⟩ :=
    endSession_ended decimalStrings (run decimalStrings s reqs) machine_id now rec h
  obtain ⟨hin, _, hnone⟩ := activeByMachine_head _ machine_id record rest hact
  have hid : record.id = r.id := by rw [← e, hrec]
  have := hk.eq_of_id_eq hin hmem hid
  rw [this] at hnone
  exact hend hnone

/-- Witness of C26: record 2 is finalised by the first two requests on `demoStore`;
two more starts and an end leave it as it was. -/
theorem finalized_record_immutable_witness :
    (⟨2, some 1, 1, some 0, some 60000, some (computeFee 1 10)⟩ : UsageRecord) ∈
        (run false demoStore [Request.start 1 1 0, Request.finish 1 60000]).usage_records ∧
      (⟨2, some 1, 1, some 0, some 60000, some (computeFee 1 10)⟩ : UsageRecord) ∈
        (run false (run false demoStore [Request.start 1 1 0, Request.finish 1 60000])
          [Request.start 1 1 70000, Request.start 2 2 70000,
           Request.finish 1 200000]).usage_records :=
  ⟨by decide!,
   (finalized_record_immutable false
    (run false demoStore [Request.start 1 1 0, Request.finish 1 60000])
    [Request.start 1 1 70000, Request.start 2 2 70000, Request.finish 1 200000]
    ⟨2, some 1, 1, some 0, some 60000, some (computeFee 1 10)⟩
    (by decide!) (by decide!) (by decide)).1⟩

/-! ## Two starts on one free machine -/

theorem startSessionOn_self (s : Store) (member_id machine_id : Nat) (now : Int) :
    startSessionOn s s member_id machine_id now = startSession s member_id machine_id now :=
  rfl

/-- C28, as stated, fails: members 1 and 2 of `demoStore`, neither with an active
record, both start on free machine 1.  Each passes the four checks on the store
as it is before either writes; the handler takes no lock, so when the second
request has read before the first writes, both answer 201, the records 2 and 3 are
both active on machine 1, and machine 1 is in use with two active records.  Served
one after the other, the second is refused. -/
theorem concurrent_start_counterexample :
    StartPreconditions demoStore 1 1 ∧ StartPreconditions demoStore 2 1 ∧
      startSessionOn demoStore demoStore 1 1 10 =
        (startWrites demoStore 1 1 10, .created ⟨2, 1, 1, 10⟩) ∧
      startSessionOn demoStore (startWrites demoStore 1 1 10) 2 1 20 =
        (startWrites (startWrites demoStore 1 1 10) 2 1 20, .created ⟨3, 2, 1, 20⟩) ∧
      (StartResult.created ⟨2, 1, 1, 10⟩).status = 201 ∧
      (StartResult.created ⟨3, 2, 1, 20⟩).status = 201 ∧
      activeByMachine (startWrites (startWrites demoStore 1 1 10) 2 1 20) 1 =
        [⟨2, some 1, 1, some 10, none, none⟩, ⟨3, some 2, 1, some 20, none, none⟩] ∧
      ¬ MachineExclusive (startWrites (startWrites demoStore 1 1 10) 2 1 20) ∧
      (startSession (startWrites demoStore 1 1 10) 2 1 20).2 =
        .machineUnavailable statusInUse := by
  decide!

/-- C28 (amended): two `/start` requests with present ids for the same machine, by
different members, each of which passes the four checks on the store `s`, served
one after the other: the first answers 201 and writes, the second reads what the
first wrote and is refused with the machine-unavailable response (400, carrying
the status in use), changing nothing.  Exactly one of the two answers 201. -/
theorem serial_starts_one_succeeds (s : Store) (m1 m2 k : Nat) (t1 t2 : Int)
    (hm1 : m1 ≠ 0) (hm2 : m2 ≠ 0) (hk : k ≠ 0) (hne : m1 ≠ m2)
    (h1 : StartPreconditions s m1 k) (h2 : StartPreconditions s m2 k) :
    startSession s m1 k t1 =
        (startWrites s m1 k t1,
         .created { id := s.next_record_id, member_id := m1, machine_id := k,
                    start_time := t1 }) ∧
      (startSession s m1 k t1).2.status = 201 ∧
      startSession (startSession s m1 k t1).1 m2 k t2 =
        ((startSession s m1 k t1).1, .machineUnavailable statusInUse) ∧
      (startSession (startSession s m1 k t1).1 m2 k t2).2.status = 400 ∧
      (startSession (startSession s m1 k t1).1 m2 k t2).2.error =
        some ("该机位不可用，当前状态: " ++ statusInUse) := by
  have e1 := startSession_of_preconditions s m1 k t1 hm1 hk h1
  obtain ⟨hmem, hact, machine, rest, hmach, _⟩ := (startPreconditions_iff s m2 k).mp h2
  obtain ⟨_, hid⟩ := selectMachines_head s k machine rest hmach
  have hsel2 : selectMembers (startWrites s m1 k t1) m2 = selectMembers s m2 := rfl
  have hact2 : activeByMember (startWrites s m1 k t1) m2 = [] := by
    rw [activeByMember_startWrites, hact, if_neg hne]; rfl
  have hmach2 : selectMachines (startWrites s m1 k t1) k =
      { machine with status := statusInUse, member_id := some m1, start_time := some t1 } ::
        rest.map (fun mc =>
          if mc.id = k then
            { mc with status := statusInUse, member_id := some m1, start_time := some t1 }
          else mc) := by
    rw [selectMachines_startWrites, hmach, List.map_cons, if_pos hid]
  have e2 : startSession (startWrites s m1 k t1) m2 k t2 =
      (startWrites s m1 k t1, .machineUnavailable statusInUse) := by
    unfold startSession
    rw [if_neg (by simp [hm2, hk]), hsel2, hact2, hmach2]
    cases hs : selectMembers s m2 with
    | nil => exact absurd hs hmem
    | cons a l =>
      simp only
      rw [if_pos (fun e => statusFree_ne_statusInUse e.symm)]
  have e1s : (startSession s m1 k t1).1 = startWrites s m1 k t1 := by rw [e1]
  refine ⟨e1, ?_, ?_, ?_, ?_⟩
  · rw [e1]; rfl
  · rw [e1s]; exact e2
  · rw [e1s, e2]; rfl
  · rw [e1s, e2]; rfl

/-- Witness of C28 (amended): members 1 and 2 of `demoStore` start on free
machine 1 one after the other; the first gets record 2, the second is refused. -/
theorem serial_starts_one_succeeds_witness :
    StartPreconditions demoStore 1 1 ∧ StartPreconditions demoStore 2 1 ∧
      (startSession demoStore 1 1 10).2 = .created ⟨2, 1, 1, 10⟩ ∧
      (startSession (startSession demoStore 1 1 10).1 2 1 20).2.status = 400 :=
  have h1 : StartPreconditions demoStore 1 1 := by decide!
  have h2 : StartPreconditions demoStore 2 1 := by decide!
  have e := serial_starts_one_succeeds demoStore 1 2 1 10 20
    (by decide) (by decide) (by decide) (by decide) h1 h2
  ⟨h1, h2, congrArg Prod.snd e.1, e.2.2.2.1⟩

/-! ## Batch deletion of usage records -/

/-- C29: for a non-empty id list, when some listed id belongs to an active record
the batch deletion answers 400, the ids it reports are exactly the listed ids of
active records, and the store is unchanged; otherwise it answers 200, the records
left are exactly the former records whose id is not listed, the deleted count is
the number of former records whose id is listed, and members and machines are
unchanged. -/
theorem batch_delete_all_or_nothing (s : Store) (ids : List Nat) (hne : ids ≠ []) :
    ((∃ r ∈ s.usage_records, r.id ∈ ids ∧ r.end_time = none) →
      ∃ active_records, batchDelete s ids = (s, .activeRecords active_records) ∧
        ∀ i, i ∈ active_records ↔
          i ∈ ids ∧ ∃ r ∈ s.usage_records, r.id = i ∧ r.end_time = none) ∧
    ((¬ ∃ r ∈ s.usage_records, r.id ∈ ids ∧ r.end_time = none) →
      (batchDelete s ids).2 =
        .deleted (s.usage_records.filter (fun r => r.id ∈ ids)).length ∧
      (∀ r, r ∈ (batchDelete s ids).1.usage_records ↔ r ∈ s.usage_records ∧ r.id ∉ ids) ∧
      (s.usage_records.filter (fun r => r.id ∈ ids)).length +
        (batchDelete s ids).1.usage_records.length = s.usage_records.length ∧
      (batchDelete s ids).1.members = s.members ∧
      (batchDelete s ids).1.machines = s.machines) := by
  have hlen : ¬ ids.length = 0 := fun e => hne (List.length_eq_zero.mp e)
  constructor
  · rintro ⟨r, hr, hin, hact⟩
    cases hsel : s.usage_records.filter (fun r => r.id ∈ ids ∧ r.end_time = none) with
    | nil =>
      have : r ∈ s.usage_records.filter (fun r => r.id ∈ ids ∧ r.end_time = none) := by
        rw [List.mem_filter]; exact ⟨hr, by simp [hin, hact]⟩
      rw [hsel] at this
      exact absurd this (List.not_mem_nil r)
    | cons a l =>
      refine ⟨(a :: l).map (fun r => r.id), ?_, ?_⟩
      · unfold batchDelete
        rw [if_neg hlen, hsel]
      · intro i
        rw [← hsel, List.mem_map]
        constructor
        · rintro ⟨x, hx, rfl⟩
          rw [List.mem_filter] at hx
          simp only [decide_eq_true_eq] at hx
          exact ⟨hx.2.1, x, hx.1, rfl, hx.2.2⟩
        · rintro ⟨hi, x, hx, rfl, hxa⟩
          exact ⟨x, by rw [List.mem_filter]; exact ⟨hx, by simp [hi, hxa]⟩, rfl⟩
  · intro hno
    have hsel : s.usage_records.filter (fun r => r.id ∈ ids ∧ r.end_time = none) = [] := by
      rw [List.filter_eq_nil_iff]
      intro r hr hp
      simp only [decide_eq_true_eq] at hp
      exact hno ⟨r, hr, hp.1, hp.2⟩
    have he : batchDelete s ids =
        ({ s with usage_records := s.usage_records.filter (fun r => r.id ∉ ids) },
         .deleted (s.usage_records.filter (fun r => r.id ∈ ids)).length) := by
      unfold batchDelete
      rw [if_neg hlen, hsel]
    rw [he]
    refine ⟨rfl, ?_, ?_, rfl, rfl⟩
    · intro r
      simp only [List.mem_filter, decide_eq_true_eq]
    · simp only
      induction s.usage_records with
      | nil => rfl
      | cons a l ih =>
        by_cases ha : a.id ∈ ids
        · simp only [List.filter_cons, ha, decide_True, if_true, not_true_eq_false,
            decide_False, Bool.false_eq_true, if_false, List.length_cons] at ih ⊢
          omega
        · simp only [List.filter_cons, ha, decide_False, Bool.false_eq_true, if_false,
            not_false_eq_true, decide_True, if_true, List.length_cons] at ih ⊢
          omega

/-- Witness of C29: in the store reached from `demoStore` by a start and an end on
machine 1, the list `[1, 2, 7]` names active record 1 and finalised record 2; the
request is refused with `[1]`, and the list `[2, 7]` deletes one record. -/
theorem batch_delete_all_or_nothing_witness :
    batchDelete (run false demoStore [Request.start 1 1 0, Request.finish 1 60000]) [1, 2, 7] =
        (run false demoStore [Request.start 1 1 0, Request.finish 1 60000],
         .activeRecords [1]) ∧
      (batchDelete (run false demoStore [Request.start 1 1 0, Request.finish 1 60000])
        [2, 7]).2 = .deleted 1 :=
  ⟨by decide!,
   by
    have h := (batch_delete_all_or_nothing
      (run false demoStore [Request.start 1 1 0, Request.finish 1 60000]) [2, 7]
      (by decide)).2 (by decide!)
    rw [h.1]
    decide!⟩

/-! ## The general machine edit -/

theorem updateMachine_cases (s : Store) (id : Nat) (body : MachineEdit) (now : Int) :
    (updateMachine s id body now).1 = s ∨
    ∃ machine rest, selectMachines s id = machine :: rest ∧
      (editGuard machine body → activeByMachine s id = []) ∧
      updateMachine s id body now =
        (editWrites s id body (if body.status = some statusInUse then some now else none),
         .updated) := by
  cases hsel : selectMachines s id with
  | nil => left; simp [updateMachine, hsel]
  | cons machine rest =>
    by_cases hg : editGuard machine body
    · cases hact : activeByMachine s id with
      | nil =>
        right
        refine ⟨machine, rest, rfl, fun _ => rfl, ?_⟩
        simp [updateMachine, hsel, hg, hact]
      | cons r l => left; simp [updateMachine, hsel, hg, hact]
    · right
      refine ⟨machine, rest, rfl, fun h => absurd h hg, ?_⟩
      simp [updateMachine, hsel, hg]

/-- C22, as stated, fails: in `demoStore` every machine is in use iff exactly one
active record references it; the edit `{status: '使用中'}` of free machine 1 is
accepted and leaves machine 1 in use with no active record. -/
theorem edit_exclusivity_counterexample :
    MachineExclusive demoStore ∧
      (updateMachine demoStore 1 ⟨some statusInUse, none, none⟩ 5).2 = .updated ∧
      ¬ MachineExclusive (updateMachine demoStore 1 ⟨some statusInUse, none, none⟩ 5).1 := by
  decide!

/-- C22 (amended): an edit preserves "every machine is in use iff exactly one
active record references it" when the in-use rows of the machine have a recorded
occupant, the requested status is not the empty string, and the edit requests
in-use only for a machine whose rows are in use already. -/
theorem edit_preserves_exclusivity (s : Store) (id : Nat) (body : MachineEdit) (now : Int)
    (hex : MachineExclusive s) (hocc : OccupantRecorded s id)
    (hne : body.status ≠ some "")
    (hset : body.status = some statusInUse →
      ∀ m ∈ s.machines, m.id = id → m.status = statusInUse) :
    MachineExclusive (updateMachine s id body now).1 := by
  rcases updateMachine_cases s id body now with he | ⟨machine, rest, hsel, hguard, he⟩
  · rw [he]; exact hex
  · rw [he]
    obtain ⟨hin, hid⟩ := selectMachines_head s id machine rest hsel
    intro m' hm'
    simp only [editWrites, List.mem_map] at hm'
    obtain ⟨m0, hm0, rfl⟩ := hm'
    have hact : ∀ j, activeByMachine (editWrites s id body
        (if body.status = some statusInUse then some now else none)) j = activeByMachine s j :=
      fun _ => rfl
    by_cases hk : m0.id = id
    · rw [if_pos hk]
      simp only [hact, hk]
      have h0 := hex m0 hm0
      rw [hk] at h0
      cases hb : body.status with
      | none => simpa using h0
      | some st =>
        simp only
        by_cases hst : st = statusInUse
        · rw [hst]
          have := hset (by rw [hb, hst]) m0 hm0 hk
          exact ⟨fun _ => h0.mp this, fun _ => rfl⟩
        · constructor
          · intro e; exact absurd e hst
          · intro hc
            exfalso
            have hmach := hex machine hin
            rw [hid] at hmach
            have hinuse : machine.status = statusInUse := hmach.mpr hc
            have hg : editGuard machine body := by
              refine ⟨hinuse, hocc machine hin hid hinuse, ⟨st, by simp [hb], ?_⟩, ?_⟩
              · intro e; exact hne (by rw [hb, e])
              · rw [hb]; intro e; injection e with e; exact hst e
            have := hguard hg
            rw [this] at hc
            simp at hc
    · rw [if_neg hk]
      simp only [hact]
      exact hex m0 hm0

/-- Witness of C22 (amended): free machine 1 of `demoStore` is put under
maintenance. -/
theorem edit_preserves_exclusivity_witness :
    (updateMachine demoStore 1 ⟨some "维护中", none, none⟩ 5).2 = .updated ∧
      MachineExclusive (updateMachine demoStore 1 ⟨some "维护中", none, none⟩ 5).1 :=
  ⟨by decide!,
   edit_preserves_exclusivity demoStore 1 ⟨some "维护中", none, none⟩ 5
    (by decide!) (by decide!) (by decide) (by intro e; exact absurd e (by decide))⟩

/-- C21, as stated, fails: machine 3 of `demoStore` is in use by member 3 since
time 0 with an active record; the edit `{status: '使用中'}` is accepted and moves
its session start to the time of the edit, and the edit `{member_id: 7}` is
accepted and replaces its occupant. -/
theorem edit_frame_counterexample :
    (⟨3, "A03", statusInUse, some 3, some 0, some 10⟩ : Machine) ∈ demoStore.machines ∧
      activeByMachine demoStore 3 = [⟨1, some 3, 3, some 0, none, none⟩] ∧
      updateMachine demoStore 3 ⟨some statusInUse, none, none⟩ 500 =
        ({ demoStore with machines :=
            [⟨1, "A01", statusFree, none, none, some 10⟩,
             ⟨2, "A02", statusFree, none, none, some (-6)⟩,
             ⟨3, "A03", statusInUse, some 3, some 500, some 10⟩] }, .updated) ∧
      (updateMachine demoStore 3 ⟨none, some (some 7), none⟩ 500).2 = .updated ∧
      (∀ m ∈ (updateMachine demoStore 3 ⟨none, some (some 7), none⟩ 500).1.machines,
        m.id = 3 → m.member_id = some 7) := by
  decide!

/-- C21 (amended): while the first row of a machine is in use with a recorded
occupant and the machine has an active usage record, an edit whose requested
status is not the empty string leaves every in-use row in use (an edit asking for
another status is refused), leaves the occupant alone when the body has no
`member_id`, touches no other machine, and changes no usage record and no
member. -/
theorem edit_keeps_status_in_use (s : Store) (id : Nat) (body : MachineEdit) (now : Int)
    (machine : Machine) (mrest : List Machine) (occupant : Nat)
    (hmach : selectMachines s id = machine :: mrest)
    (hstatus : machine.status = statusInUse)
    (hocc : machine.member_id = some occupant) (hocc0 : occupant ≠ 0)
    (hact : activeByMachine s id ≠ [])
    (hne : body.status ≠ some "") :
    List.Forall₂
        (fun m m' => m'.id = m.id ∧
          (m.status = statusInUse → m'.status = statusInUse) ∧
          (body.member_id = none → m'.member_id = m.member_id) ∧
          (m.id ≠ id → m' = m))
        s.machines (updateMachine s id body now).1.machines ∧
      (∀ status, body.status = some status → status ≠ statusInUse →
        updateMachine s id body now = (s, .sessionMustEnd id statusInUse)) ∧
      (updateMachine s id body now).1.usage_records = s.usage_records ∧
      (updateMachine s id body now).1.members = s.members := by
  have hsame : List.Forall₂
      (fun m m' : Machine => m'.id = m.id ∧
        (m.status = statusInUse → m'.status = statusInUse) ∧
        (body.member_id = none → m'.member_id = m.member_id) ∧
        (m.id ≠ id → m' = m)) s.machines s.machines :=
    List.forall₂_same.mpr (fun m _ => ⟨rfl, fun h => h, fun _ => rfl, fun _ => rfl⟩)
  have hrej : ∀ status, body.status = some status → status ≠ statusInUse →
      updateMachine s id body now = (s, .sessionMustEnd id statusInUse) := by
    intro status hb hst
    have hg : editGuard machine body := by
      refine ⟨hstatus, ⟨occupant, by simp [hocc], hocc0⟩, ⟨status, by simp [hb], ?_⟩, ?_⟩
      · intro e; exact hne (by rw [hb, e])
      · rw [hb]; intro e; injection e with e; exact hst e
    unfold updateMachine
    simp only [hmach]
    rw [if_pos hg]
    cases hrec : activeByMachine s id with
    | nil => exact absurd hrec hact
    | cons r l => simp [hstatus]
  refine ⟨?_, hrej, ?_, ?_⟩
  · rcases updateMachine_cases s id body now with he | ⟨_, _, _, _, he⟩
    · rw [he]; exact hsame
    · cases hb : body.status with
      | some status =>
        by_cases hst : status = statusInUse
        · rw [he]
          simp only [editWrites]
          apply forall₂_map_of_forall
          intro m _
          by_cases hid : m.id = id
          · rw [if_pos hid]
            refine ⟨rfl, fun _ => by simp [hb, hst], fun hm => by simp [hm], fun e => absurd hid e⟩
          · rw [if_neg hid]
            exact ⟨rfl, fun h => h, fun _ => rfl, fun _ => rfl⟩
        · rw [hrej status hb hst]; exact hsame
      | none =>
        rw [he]
        simp only [editWrites]
        apply forall₂_map_of_forall
        intro m _
        by_cases hid : m.id = id
        · rw [if_pos hid]
          refine ⟨rfl, fun h => by simpa [hb] using h, fun hm => by simp [hm],
            fun e => absurd hid e⟩
        · rw [if_neg hid]
          exact ⟨rfl, fun h => h, fun _ => rfl, fun _ => rfl⟩
  · rcases updateMachine_cases s id body now with he | ⟨_, _, _, _, he⟩
    · rw [he]
    · rw [he]; rfl
  · rcases updateMachine_cases s id body now with he | ⟨_, _, _, _, he⟩
    · rw [he]
    · rw [he]; rfl

/-- Witness of C21 (amended): on machine 3 of `demoStore` the edit `{status:
'空闲', member_id: null}` is refused. -/
theorem edit_keeps_status_in_use_witness :
    updateMachine demoStore 3 ⟨some statusFree, some none, none⟩ 500 =
      (demoStore, .sessionMustEnd 3 statusInUse) :=
  (edit_keeps_status_in_use demoStore 3 ⟨some statusFree, some none, none⟩ 500
    ⟨3, "A03", statusInUse, some 3, some 0, some 10⟩ [] 3
    (by decide!) rfl rfl (by decide) (by decide!) (by decide)).2.1 statusFree rfl (by decide)

/-- C30 fails on the code: the edit `{hourly_rate: 5}` of machine 3 of `demoStore`
(in use since time 0) is accepted and writes `start_time = NULL`; the machine
stays in use without a session start. -/
theorem edit_without_status_clears_start :
    (⟨3, "A03", statusInUse, some 3, some 0, some 10⟩ : Machine) ∈ demoStore.machines ∧
      updateMachine demoStore 3 ⟨none, none, some (some 5)⟩ 500 =
        ({ demoStore with machines :=
            [⟨1, "A01", statusFree, none, none, some 10⟩,
             ⟨2, "A02", statusFree, none, none, some (-6)⟩,
             ⟨3, "A03", statusInUse, some 3, none, some 5⟩] }, .updated) := by
  decide!

/-- C24 fails on the code: in `sharedStore` the rate of machine 1 is 10; the
general edit `{hourly_rate: -5}` is accepted and stores the rate -5, while the
dedicated rate edit refuses the same rate. -/
theorem edit_stores_negative_rate :
    RateNonneg sharedStore 1 ∧
      updateMachine sharedStore 1 ⟨none, none, some (some (-5))⟩ 500 =
        ({ sharedStore with machines := [⟨1, "A01", statusFree, none, none, some (-5)⟩] },
         .updated) ∧
      ¬ RateNonneg (updateMachine sharedStore 1 ⟨none, none, some (some (-5))⟩ 500).1 1 ∧
      setHourlyRate sharedStore 1 (.number (-5)) = (sharedStore, .invalidRate) := by
  decide!

/-! ## Members -/

/-- C25 fails on the code: `POST /api/members` with balance -50 is answered 201 and
stores a member whose balance is -50. -/
theorem create_member_stores_negative_balance :
    createMember emptyStore 1 "丁" "13800000004" (some (-50)) =
      ({ emptyStore with members := [⟨1, "丁", "13800000004", -50⟩] },
       ⟨1, "丁", "13800000004", some (-50)⟩) := by
  decide!

/-- C27, as stated, fails: after the accepted machine edit `{member_id: null}`
member 3 of `demoStore` still has active record 1, and the deletion of member 3
is accepted and deletes that record. -/
theorem delete_member_counterexample :
    activeByMember (updateMachine demoStore 3 ⟨none, some none, none⟩ 5).1 3 =
        [⟨1, some 3, 3, some 0, none, none⟩] ∧
      (deleteMember (updateMachine demoStore 3 ⟨none, some none, none⟩ 5).1 3).2 = .deleted ∧
      (deleteMember (updateMachine demoStore 3 ⟨none, some none, none⟩ 5).1 3).1.usage_records
        = [] := by
  decide!

/-- C27 (amended): the deletion of a member is refused, changing nothing, when a
machine row is in use with the member as occupant; so in a store where every
active usage record sits at an in-use machine row occupied by its member, a member
with an active record is never deleted.  When the deletion is accepted the member
rows left are those with another id, the usage records left are those of other
members, all usage records of the deleted member were finalised, and the machine
rows naming the member lose the occupant and become free. -/
theorem delete_member_effects (s : Store) (id : Nat) (hseated : ActiveRecordsSeated s) :
    (activeByMember s id ≠ [] →
      (deleteMember s id).1 = s ∧ (deleteMember s id).2 ≠ .deleted) ∧
    ((∃ m ∈ s.machines, m.member_id = some id ∧ m.status = statusInUse) →
      selectMembers s id ≠ [] → deleteMember s id = (s, .memberInUse)) ∧
    ((deleteMember s id).2 = .deleted →
      (deleteMember s id).1.members = s.members.filter (fun m => m.id ≠ id) ∧
      (deleteMember s id).1.usage_records =
        s.usage_records.filter (fun r => r.member_id ≠ some id) ∧
      (∀ r ∈ s.usage_records, r.member_id = some id → r.end_time ≠ none) ∧
      (deleteMember s id).1.machines =
        s.machines.map (fun m =>
          if m.member_id = some id then { m with member_id := none, status := statusFree }
          else m)) := by
  have hbusy : (∃ m ∈ s.machines, m.member_id = some id ∧ m.status = statusInUse) →
      (deleteMember s id).1 = s ∧ (deleteMember s id).2 ≠ .deleted ∧
      (selectMembers s id ≠ [] → deleteMember s id = (s, .memberInUse)) := by
    rintro ⟨m, hm, hocc, hst⟩
    have hin : m ∈ s.machines.filter (fun m => m.member_id = some id ∧ m.status = statusInUse) := by
      rw [List.mem_filter]; exact ⟨hm, by simp [hocc, hst]⟩
    cases hsel : selectMembers s id with
    | nil => simp [deleteMember, hsel]
    | cons a l =>
      cases hf : s.machines.filter (fun m => m.member_id = some id ∧ m.status = statusInUse) with
      | nil => rw [hf] at hin; exact absurd hin (List.not_mem_nil m)
      | cons b l2 =>
        unfold deleteMember
        simp only [hsel, hf]
        exact ⟨trivial, by simp, fun _ => trivial⟩
  have hactive : activeByMember s id ≠ [] →
      ∃ m ∈ s.machines, m.member_id = some id ∧ m.status = statusInUse := by
    intro hne
    cases hact : activeByMember s id with
    | nil => exact absurd hact hne
    | cons r l =>
      have hr : r ∈ activeByMember s id := by rw [hact]; exact List.mem_cons_self _ _
      unfold activeByMember at hr
      rw [List.mem_filter] at hr
      simp only [decide_eq_true_eq] at hr
      obtain ⟨m, hm, _, hst, hocc⟩ := hseated r hr.1 hr.2.2
      exact ⟨m, hm, by rw [hocc, hr.2.1], hst⟩
  refine ⟨fun h => ⟨(hbusy (hactive h)).1, (hbusy (hactive h)).2.1⟩,
    fun h hsel => (hbusy h).2.2 hsel, ?_⟩
  intro hdel
  have hnone : activeByMember s id = [] := by
    by_contra hne
    exact (hbusy (hactive hne)).2.1 hdel
  have he : deleteMember s id = (deleteMemberWrites s id, .deleted) := by
    cases hsel : selectMembers s id with
    | nil => simp [deleteMember, hsel] at hdel
    | cons a l =>
      cases hf : s.machines.filter (fun m => m.member_id = some id ∧ m.status = statusInUse) with
      | nil =>
        unfold deleteMember
        simp only [hsel, hf]
      | cons b l2 =>
        unfold deleteMember at hdel
        simp only [hsel, hf] at hdel
        exact absurd hdel (by simp)
  rw [he]
  refine ⟨rfl, rfl, ?_, rfl⟩
  intro r hr hmem hend
  have : r ∈ activeByMember s id := by
    unfold activeByMember
    rw [List.mem_filter]
    exact ⟨hr, by simp [hmem, hend]⟩
  rw [hnone] at this
  exact absurd this (List.not_mem_nil r)

/-- Witness of C27 (amended): in `demoStore` member 3 sits at machine 3 and cannot
be deleted; member 2 has no usage record and is deleted. -/
theorem delete_member_effects_witness :
    ActiveRecordsSeated demoStore ∧
      deleteMember demoStore 3 = (demoStore, .memberInUse) ∧
      (deleteMember demoStore 2).1.members =
        demoStore.members.filter (fun m => m.id ≠ 2) :=
  ⟨by decide!,
   (delete_member_effects demoStore 3 (by decide!)).2.1 (by decide!) (by decide!),
   ((delete_member_effects demoStore 2 (by decide!)).2.2 (by decide!)).1⟩

end InternetBar
